import Mathlib

/-!
# Quiz application: submit and result handlers of `src/app.js`

A shallow embedding of the two request handlers

* `app.post('/api/quizzes/submit')` (grading and recording of an attempt), and
* `app.get('/quiz/sonuc/:attemptId')` (reconstruction of a recorded result),

together with the JavaScript primitives they rely on: binary64 arithmetic for
`Math.round((correctAnswers / questions.length) * 100)` and
`JSON.stringify` / `JSON.parse` for the stored question snapshot.

Modelling conventions.

* Identifier resolution.  `app.js` binds the models only as
  `const db = require('./models')` (line 9); the two handlers name them
  `Quiz`, `Question`, `Option`, `QuizAttempt` and `UserAnswer` without any
  declaration.  A handler therefore takes the scope it runs in (the names that
  resolve) as a parameter; evaluating a name outside the scope throws a
  `ReferenceError`, which ends the handler in its `catch` block.  `appScope` is
  the scope `app.js` itself sets up; the theorems on the claims are about the
  handlers in `appScope`.  `modelScope` adds the five model names, the way the
  sibling handlers reach the models through `db`, and is used only to describe
  what the bodies of the handlers would do.
* The rows the models return are plain records carrying the attributes the
  handlers read; an attribute the row does not define reads `undefined`
  (`none`).  The tables are lists in insertion order.
* Ids, answer indices and `timeSpent` are integers; texts are strings of
  Unicode scalar values.
* Reads succeed.  A write may throw; which writes of a request throw is given
  by a fault plan `fails : Nat → Bool` indexed by the position of the write in
  the request.  An exception ends the handler in its `catch` block (status 500)
  with the store as the completed writes left it.
* Rendering of the view (`res.render`) is not modelled: the result handler
  returns the `result` object it would pass to the view.
-/

namespace QuizApp

/-! ## JavaScript numbers (binary64, non-negative part) -/

/-- A non-negative finite binary64 value, written `m * 2 ^ e`.  The exponent
range of binary64 is not modelled: every value the submit handler computes lies
between `2 ^ (-53)` and `2 ^ 60`, far from overflow and underflow. -/
structure Dbl where
  m : Nat
  e : Int
deriving DecidableEq

/-- The rational number a `Dbl` denotes. -/
def Dbl.toRat (d : Dbl) : ℚ := (d.m : ℚ) * (2 : ℚ) ^ d.e

/-- Nearest natural number to `a / b`, ties to even (the IEEE 754 default
rounding direction applied to the scaled significand). -/
def rne (a b : Nat) : Nat :=
  if 2 * (a % b) < b then a / b
  else if b < 2 * (a % b) then a / b + 1
  else if (a / b) % 2 = 0 then a / b else a / b + 1

/-- Binary logarithm by repeated halving; `fuel` bounds the number of halvings. -/
def log2Fuel : Nat → Nat → Nat
  | 0, _ => 0
  | fuel + 1, n => if n < 2 then 0 else log2Fuel fuel (n / 2) + 1

/-- The position of the leading bit of `n`: `⌊log₂ n⌋` for positive `n`. -/
def floorLog2 (n : Nat) : Nat := log2Fuel n n

/-- The binade of `a / b` for positive `a`, `b`: the integer `k` with
`2 ^ k ≤ a / b < 2 ^ (k + 1)`. -/
def ilog2 (a b : Nat) : Int :=
  if floorLog2 b ≤ floorLog2 a then
    (if b * 2 ^ (floorLog2 a - floorLog2 b) ≤ a then ((floorLog2 a - floorLog2 b : Nat) : Int)
     else ((floorLog2 a - floorLog2 b : Nat) : Int) - 1)
  else
    (if b ≤ a * 2 ^ (floorLog2 b - floorLog2 a) then -((floorLog2 b - floorLog2 a : Nat) : Int)
     else -((floorLog2 b - floorLog2 a : Nat) : Int) - 1)

/-- The binary64 number nearest to the exact quotient `a / b` (`b ≠ 0`): the
quotient is scaled into `[2 ^ 52, 2 ^ 53)`, rounded to an integer significand
of 53 bits with ties to even, and scaled back. -/
def roundDouble (a b : Nat) : Dbl :=
  if a = 0 then ⟨0, 0⟩
  else if ilog2 a b ≤ 52 then
    ⟨rne (a * 2 ^ (52 - ilog2 a b).toNat) b, ilog2 a b - 52⟩
  else
    ⟨rne a (b * 2 ^ (ilog2 a b - 52).toNat), ilog2 a b - 52⟩

/-- Correctly rounded binary64 product `x * y`. -/
def Dbl.mul (x y : Dbl) : Dbl :=
  if 0 ≤ x.e + y.e then roundDouble (x.m * y.m * 2 ^ (x.e + y.e).toNat) 1
  else roundDouble (x.m * y.m) (2 ^ (-(x.e + y.e)).toNat)

/-- The function `Math.round` on a non-negative finite number: the integer `⌊x + 1/2⌋`
(ties go towards `+∞`). -/
def Dbl.round (x : Dbl) : Nat :=
  if 0 ≤ x.e then x.m * 2 ^ x.e.toNat
  else (2 * x.m + 2 ^ (-x.e).toNat) / (2 * 2 ^ (-x.e).toNat)

/-- The JavaScript Number values that can arise from dividing two counts,
multiplying by a positive constant and rounding. -/
inductive JsNumber where
  | nan
  | posInf
  | fin (d : Dbl)
deriving DecidableEq

/-- A natural number as a JavaScript Number (exact below `2 ^ 53`). -/
def JsNumber.ofNat (n : Nat) : JsNumber := .fin ⟨n, 0⟩

/-- The quotient `c / n` of two counts: `0 / 0` is `NaN`, `c / 0` is `Infinity`
for positive `c`, and otherwise the nearest binary64 to the exact quotient. -/
def JsNumber.divCounts (c n : Nat) : JsNumber :=
  if n = 0 then (if c = 0 then .nan else .posInf) else .fin (roundDouble c n)

/-- The product `x * k` with a positive integer constant `k`. -/
def JsNumber.mulConst (x : JsNumber) (k : Nat) : JsNumber :=
  match x with
  | .nan => .nan
  | .posInf => .posInf
  | .fin d => .fin (d.mul ⟨k, 0⟩)

/-- The call `Math.round(x)`: `NaN` and `Infinity` are returned unchanged. -/
def JsNumber.mathRound (x : JsNumber) : JsNumber :=
  match x with
  | .nan => .nan
  | .posInf => .posInf
  | .fin d => .ofNat d.round

/-- The score expression of the submit handler,
`Math.round((correctAnswers / questions.length) * 100)`. -/
def computeScore (correctAnswers length : Nat) : JsNumber :=
  ((JsNumber.divCounts correctAnswers length).mulConst 100).mathRound


/-! ## JSON text: `JSON.stringify` of a snapshot and `JSON.parse` -/

/-- A parsed JSON document.  A numeric literal is kept as the exact rational it
denotes (integers below `2 ^ 53` are represented exactly by a JavaScript
Number as well). -/
inductive Json where
  | null
  | bool (b : Bool)
  | num (q : ℚ)
  | str (s : String)
  | arr (items : List Json)
  | obj (members : List (String × Json))

/-- The quotation mark, U+0022. -/
def chQuote : Char := Char.ofNat 34
/-- The reverse solidus, U+005C. -/
def chBackslash : Char := Char.ofNat 92
/-- The solidus, U+002F. -/
def chSlash : Char := Char.ofNat 47
/-- The left curly bracket, U+007B. -/
def chLBrace : Char := Char.ofNat 123
/-- The right curly bracket, U+007D. -/
def chRBrace : Char := Char.ofNat 125
/-- The left square bracket, U+005B. -/
def chLBracket : Char := Char.ofNat 91
/-- The right square bracket, U+005D. -/
def chRBracket : Char := Char.ofNat 93
/-- The comma, U+002C. -/
def chComma : Char := Char.ofNat 44
/-- The colon, U+003A. -/
def chColon : Char := Char.ofNat 58
/-- The hyphen-minus, U+002D. -/
def chMinus : Char := Char.ofNat 45
/-- The plus sign, U+002B. -/
def chPlus : Char := Char.ofNat 43
/-- The full stop, U+002E. -/
def chDot : Char := Char.ofNat 46

/-- Lower-case hexadecimal digit of a value below 16. -/
def hexDigit (d : Nat) : Char :=
  if d < 10 then Char.ofNat (48 + d) else Char.ofNat (87 + d)

/-- The JSON escape of one character inside a string literal
(`QuoteJSONString`): the quotation mark, the reverse solidus and the control
characters below U+0020 are escaped, everything else is copied. -/
def quoteChar (c : Char) : List Char :=
  if c = chQuote then [chBackslash, chQuote]
  else if c = chBackslash then [chBackslash, chBackslash]
  else if c.toNat = 8 then [chBackslash, 'b']
  else if c.toNat = 12 then [chBackslash, 'f']
  else if c.toNat = 10 then [chBackslash, 'n']
  else if c.toNat = 13 then [chBackslash, 'r']
  else if c.toNat = 9 then [chBackslash, 't']
  else if c.toNat < 32 then
    [chBackslash, 'u', '0', '0', hexDigit (c.toNat / 16), hexDigit (c.toNat % 16)]
  else [c]

/-- The JSON string literal for `s`. -/
def quoteJSON (s : String) : List Char :=
  chQuote :: (s.data.flatMap quoteChar ++ [chQuote])

/-- Decimal digits of `n`, most significant first, prepended to `acc`. -/
def digitsFuel : Nat → Nat → List Char → List Char
  | 0, _, acc => acc
  | fuel + 1, n, acc =>
    if n < 10 then Char.ofNat (48 + n) :: acc
    else digitsFuel fuel (n / 10) (Char.ofNat (48 + n % 10) :: acc)

/-- The decimal numeral of a natural number. -/
def natDigits (n : Nat) : List Char := digitsFuel (n + 1) n []

/-- The numeral `JSON.stringify` writes for an integer (decimal notation,
which is what `Number::toString` gives for integers below `10 ^ 21`). -/
def intDigits (n : Int) : List Char :=
  if n < 0 then chMinus :: natDigits n.natAbs else natDigits n.natAbs

/-- The text `JSON.stringify` writes for one array element: a string literal,
or `null` for an element that is `undefined`. -/
def elemJSON : Option String → List Char
  | some s => quoteJSON s
  | none => ['n', 'u', 'l', 'l']

/-- The elements of a JSON array, separated by commas. -/
def joinElems : List (Option String) → List Char
  | [] => []
  | [s] => elemJSON s
  | s :: t :: rest => elemJSON s ++ chComma :: joinElems (t :: rest)

/-- The object built by the submit handler for one question,
`{ text: question.text, options: question.Options.map(o => o.text),
correctAnswer: question.correctOptionIndex }`; a value that reads `undefined`
is `none`. -/
structure Snapshot where
  text : Option String
  options : List (Option String)
  correctAnswer : Option Int
deriving DecidableEq

/-- The text `JSON.stringify` writes for a snapshot object: own properties in
insertion order, no white space; a property whose value is `undefined` is
left out, an `undefined` array element is written `null`. -/
def stringifySnapshot (s : Snapshot) : String :=
  String.mk (chLBrace ::
    ((match s.text with
      | some t => quoteJSON "text" ++ chColon :: (quoteJSON t ++ [chComma])
      | none => []) ++
     (quoteJSON "options" ++ chColon :: chLBracket :: (joinElems s.options ++ chRBracket ::
       ((match s.correctAnswer with
         | some n => chComma :: (quoteJSON "correctAnswer" ++ chColon :: intDigits n)
         | none => []) ++ [chRBrace])))))

/-- JSON white space: space, tab, line feed, carriage return. -/
def isWs (c : Char) : Bool :=
  c.toNat = 32 || c.toNat = 9 || c.toNat = 10 || c.toNat = 13

/-- Drop leading white space. -/
def skipWs : List Char → List Char
  | [] => []
  | c :: rest => if isWs c then skipWs rest else c :: rest

/-- Value of a decimal digit. -/
def digitVal (c : Char) : Option Nat :=
  if 48 ≤ c.toNat ∧ c.toNat ≤ 57 then some (c.toNat - 48) else none

/-- Value of a hexadecimal digit (either case). -/
def hexVal (c : Char) : Option Nat :=
  if 48 ≤ c.toNat ∧ c.toNat ≤ 57 then some (c.toNat - 48)
  else if 97 ≤ c.toNat ∧ c.toNat ≤ 102 then some (c.toNat - 87)
  else if 65 ≤ c.toNat ∧ c.toNat ≤ 70 then some (c.toNat - 55)
  else none

/-- The character denoted by a single-character escape `\c`. -/
def unescape (c : Char) : Option Char :=
  if c = chQuote then some chQuote
  else if c = chBackslash then some chBackslash
  else if c = chSlash then some chSlash
  else if c = 'b' then some (Char.ofNat 8)
  else if c = 'f' then some (Char.ofNat 12)
  else if c = 'n' then some (Char.ofNat 10)
  else if c = 'r' then some (Char.ofNat 13)
  else if c = 't' then some (Char.ofNat 9)
  else none

/-- Scanner state inside a string literal. -/
inductive StrMode where
  | plain
  | escape
  | hex (remaining : Nat) (value : Nat)

/-- Scan the body of a string literal (the opening quotation mark already
consumed); `acc` holds the characters read so far, last first.  Strings are
sequences of Unicode scalar values here, so a `\u` escape that denotes a
surrogate code unit is reported as a failure. -/
def parseStrBody : StrMode → List Char → List Char → Option (String × List Char)
  | _, _, [] => none
  | .plain, acc, c :: rest =>
    if c = chQuote then some (String.mk acc.reverse, rest)
    else if c = chBackslash then parseStrBody .escape acc rest
    else if c.toNat < 32 then none
    else parseStrBody .plain (c :: acc) rest
  | .escape, acc, c :: rest =>
    if c = 'u' then parseStrBody (.hex 4 0) acc rest
    else match unescape c with
      | some ch => parseStrBody .plain (ch :: acc) rest
      | none => none
  | .hex k v, acc, c :: rest =>
    match hexVal c with
    | none => none
    | some d =>
      if k ≤ 1 then
        (if 55296 ≤ v * 16 + d ∧ v * 16 + d ≤ 57343 then none
         else parseStrBody .plain (Char.ofNat (v * 16 + d) :: acc) rest)
      else parseStrBody (.hex (k - 1) (v * 16 + d)) acc rest

/-- Read a maximal run of decimal digits: the value accumulated onto `v`, the
number of digits read added to `k`, and the remaining input. -/
def takeDigits : List Char → Nat → Nat → Nat × Nat × List Char
  | [], v, k => (v, k, [])
  | c :: rest, v, k =>
    match digitVal c with
    | some d => takeDigits rest (v * 10 + d) (k + 1)
    | none => (v, k, c :: rest)

/-- Integer part of a JSON number: a single `0`, or a non-zero digit followed
by digits. -/
def parseIntPart : List Char → Option (Nat × List Char)
  | [] => none
  | c :: rest =>
    match digitVal c with
    | none => none
    | some d =>
      if d = 0 then some (0, rest)
      else some ((takeDigits rest d 1).1, (takeDigits rest d 1).2.2)

/-- Optional fraction part `.digits`: numerator, number of digits, rest. -/
def parseFraction : List Char → Option (Nat × Nat × List Char)
  | [] => some (0, 0, [])
  | c :: rest =>
    if c = chDot then
      (if (takeDigits rest 0 0).2.1 = 0 then none else some (takeDigits rest 0 0))
    else some (0, 0, c :: rest)

/-- Optional exponent part `e[+-]digits`: the exponent and the rest. -/
def parseExponent : List Char → Option (Int × List Char)
  | [] => some (0, [])
  | c :: rest =>
    if c = 'e' ∨ c = 'E' then
      match rest with
      | [] => none
      | s :: rest2 =>
        if s = chMinus then
          (if (takeDigits rest2 0 0).2.1 = 0 then none
           else some (-((takeDigits rest2 0 0).1 : Int), (takeDigits rest2 0 0).2.2))
        else if s = chPlus then
          (if (takeDigits rest2 0 0).2.1 = 0 then none
           else some (((takeDigits rest2 0 0).1 : Int), (takeDigits rest2 0 0).2.2))
        else
          (if (takeDigits (s :: rest2) 0 0).2.1 = 0 then none
           else some (((takeDigits (s :: rest2) 0 0).1 : Int), (takeDigits (s :: rest2) 0 0).2.2))
    else some (0, c :: rest)

/-- An unsigned JSON number. -/
def parseUnsigned (input : List Char) : Option (ℚ × List Char) :=
  match parseIntPart input with
  | none => none
  | some (ip, r1) =>
    match parseFraction r1 with
    | none => none
    | some (fn, fl, r2) =>
      match parseExponent r2 with
      | none => none
      | some (ex, r3) => some (((ip : ℚ) + (fn : ℚ) / 10 ^ fl) * 10 ^ ex, r3)

/-- A JSON number with its optional sign. -/
def parseNumber : List Char → Option (ℚ × List Char)
  | [] => none
  | c :: rest =>
    if c = chMinus then
      match parseUnsigned rest with
      | some (q, r) => some (-q, r)
      | none => none
    else parseUnsigned (c :: rest)

mutual
/-- Parse one JSON value; `fuel` bounds the number of nested calls. -/
def parseValue : Nat → List Char → Option (Json × List Char)
  | 0, _ => none
  | fuel + 1, input =>
    match skipWs input with
    | [] => none
    | c :: rest =>
      if c = chQuote then
        match parseStrBody .plain [] rest with
        | some (s, r) => some (.str s, r)
        | none => none
      else if c = chLBracket then
        match skipWs rest with
        | [] => none
        | d :: rest2 =>
          if d = chRBracket then some (.arr [], rest2)
          else parseElems fuel (d :: rest2) []
      else if c = chLBrace then
        match skipWs rest with
        | [] => none
        | d :: rest2 =>
          if d = chRBrace then some (.obj [], rest2)
          else parseMembers fuel (d :: rest2) []
      else if c = 'n' then
        match rest with
        | 'u' :: 'l' :: 'l' :: r => some (.null, r)
        | _ => none
      else if c = 't' then
        match rest with
        | 'r' :: 'u' :: 'e' :: r => some (.bool true, r)
        | _ => none
      else if c = 'f' then
        match rest with
        | 'a' :: 'l' :: 's' :: 'e' :: r => some (.bool false, r)
        | _ => none
      else
        match parseNumber (c :: rest) with
        | some (q, r) => some (.num q, r)
        | none => none
/-- Parse the elements of a non-empty array up to the closing bracket; `acc`
holds the elements read so far, last first. -/
def parseElems : Nat → List Char → List Json → Option (Json × List Char)
  | 0, _, _ => none
  | fuel + 1, input, acc =>
    match parseValue fuel input with
    | none => none
    | some (v, r) =>
      match skipWs r with
      | [] => none
      | c :: rest =>
        if c = chComma then parseElems fuel rest (v :: acc)
        else if c = chRBracket then some (.arr (v :: acc).reverse, rest)
        else none
/-- Parse the members of a non-empty object up to the closing brace. -/
def parseMembers : Nat → List Char → List (String × Json) → Option (Json × List Char)
  | 0, _, _ => none
  | fuel + 1, input, acc =>
    match skipWs input with
    | [] => none
    | q :: r0 =>
      if q = chQuote then
        match parseStrBody .plain [] r0 with
        | none => none
        | some (key, r1) =>
          match skipWs r1 with
          | [] => none
          | c :: r2 =>
            if c = chColon then
              match parseValue fuel r2 with
              | none => none
              | some (v, r3) =>
                match skipWs r3 with
                | [] => none
                | e :: r4 =>
                  if e = chComma then parseMembers fuel r4 ((key, v) :: acc)
                  else if e = chRBrace then some (.obj ((key, v) :: acc).reverse, r4)
                  else none
            else none
      else none
end

/-- The call `JSON.parse(text)`: one value surrounded by optional white space; `none`
stands for the `SyntaxError` thrown on anything else. -/
def jsonParse (text : String) : Option Json :=
  match parseValue (text.data.length + 1) text.data with
  | none => none
  | some (v, r) => if skipWs r = [] then some v else none

/-- The property read `v.key` on a parsed value: `none` inside is `undefined`;
the outer `none` is the `TypeError` raised when `v` is `null`.  For an object
with a repeated key `JSON.parse` keeps the last member. -/
def Json.getProp (v : Json) (key : String) : Option (Option Json) :=
  match v with
  | .null => none
  | .obj members =>
    some ((members.reverse.find? (fun kv => kv.1 = key)).map (fun kv => kv.2))
  | _ => some none

/-! ## Scopes -/

/-- The identifiers that resolve when a handler runs.  The built-in globals the
handlers use (`JSON`, `Math`, `Date`, `console`) always resolve and are not
listed. -/
abbrev Scope := List String

/-- Whether a bare identifier resolves; if not, evaluating it throws a
`ReferenceError`. -/
def Scope.binds (scope : Scope) (name : String) : Bool := scope.contains name

/-- The module-level declarations of `app.js` (lines 3-12, 39, 66, 488). -/
def appScope : Scope :=
  ["express", "session", "path", "bcrypt", "db", "app", "veritabaniBaglantisiniBaslat",
    "isAuthenticated", "PORT"]

/-- The scope of `app.js` extended by the model names the two handlers use. -/
def modelScope : Scope :=
  appScope ++ ["Quiz", "Question", "Option", "QuizAttempt", "UserAnswer"]

/-! ## Rows and tables -/

/-- An `Option` row as loaded with its question; the handler reads `o.text`. -/
structure QuizOption where
  id : Int
  text : Option String
deriving DecidableEq

/-- A `Question` row with its included options (`question.Options`), in the
order returned; the handler reads `id`, `text` and `correctOptionIndex`. -/
structure Question where
  id : Int
  text : Option String
  correctOptionIndex : Option Int
  Options : List QuizOption
deriving DecidableEq

/-- A `Quiz` row with its included questions (`quiz.Questions`). -/
structure Quiz where
  id : Int
  title : String
  Questions : List Question
deriving DecidableEq

/-- A `QuizAttempt` row. -/
structure QuizAttempt where
  id : Int
  userId : Int
  quizId : Int
  score : JsNumber
  timeSpent : Int
  completedAt : Nat
deriving DecidableEq

/-- A `UserAnswer` row. -/
structure UserAnswer where
  id : Int
  attemptId : Int
  questionId : Int
  answerIndex : Int
  isCorrect : Bool
  questionSnapshot : String
deriving DecidableEq

/-- The tables the two handlers touch, rows in insertion order, together with
the next auto-increment keys of the two tables the submit handler writes. -/
structure Store where
  quizzes : List Quiz
  attempts : List QuizAttempt
  answers : List UserAnswer
  nextAttemptId : Int
  nextAnswerId : Int
deriving DecidableEq

/-- One element of `req.body.answers`. -/
structure SubmittedAnswer where
  questionId : Int
  answerIndex : Int
deriving DecidableEq

/-- The request body `{ quizId, answers, timeSpent }`. -/
structure SubmitBody where
  quizId : Int
  answers : List SubmittedAnswer
  timeSpent : Int
deriving DecidableEq

/-- The query `findByPk(quizId, { include: [{ model: Question, include: [Option] }] })`
on the quiz table. -/
def Store.findQuiz (s : Store) (quizId : Int) : Option Quiz :=
  s.quizzes.find? (fun q => decide (q.id = quizId))

/-- The query `findByPk(attemptId, ...)` on the attempt table. -/
def Store.findAttempt (s : Store) (attemptId : Int) : Option QuizAttempt :=
  s.attempts.find? (fun a => decide (a.id = attemptId))

/-- The included `attempt.UserAnswers`: the answer rows that reference the
attempt, in insertion order. -/
def Store.answersOf (s : Store) (attemptId : Int) : List UserAnswer :=
  s.answers.filter (fun a => decide (a.attemptId = attemptId))

/-- The write `create({ userId, quizId, score: 0, timeSpent, completedAt })` on
the attempt table. -/
def Store.createAttempt (s : Store) (userId quizId timeSpent : Int) (now : Nat) : Store :=
  { s with
    attempts := s.attempts ++
      [{ id := s.nextAttemptId, userId := userId, quizId := quizId,
         score := JsNumber.ofNat 0, timeSpent := timeSpent, completedAt := now }]
    nextAttemptId := s.nextAttemptId + 1 }

/-- The write `create({ attemptId, questionId, answerIndex, isCorrect,
questionSnapshot })` on the answer table. -/
def Store.createAnswer (s : Store) (attemptId questionId answerIndex : Int) (isCorrect : Bool)
    (questionSnapshot : String) : Store :=
  { s with
    answers := s.answers ++
      [{ id := s.nextAnswerId, attemptId := attemptId, questionId := questionId,
         answerIndex := answerIndex, isCorrect := isCorrect,
         questionSnapshot := questionSnapshot }]
    nextAnswerId := s.nextAnswerId + 1 }

/-- The write `attempt.update({ score })` on the attempt with the given key. -/
def Store.updateScore (s : Store) (attemptId : Int) (score : JsNumber) : Store :=
  { s with
    attempts := s.attempts.map
      (fun a => if a.id = attemptId then { a with score := score } else a) }

/-! ## `app.post('/api/quizzes/submit')`, lines 340-405 -/

/-- The responses of the submit handler: `200 { success: true, attemptId }`,
`404` and `500`. -/
inductive SubmitResponse where
  | ok (attemptId : Int)
  | notFound
  | serverError
deriving DecidableEq

/-- The object passed to `JSON.stringify` for a question (lines 381-385). -/
def snapshotOf (q : Question) : Snapshot :=
  { text := q.text, options := q.Options.map (fun o => o.text),
    correctAnswer := q.correctOptionIndex }

/-- The loop `for (const answer of answers)` (lines 369-387).  `correct` is
`correctAnswers` so far and `w` the number of writes issued so far in this
request; `fails w` tells whether the write number `w` throws.  For an entry that
matches a question the loop grades it, counts it and then names `UserAnswer`
(line 376), which throws unless the scope binds it.  The result is the store
reached and, unless something threw, the final `correctAnswers` and write
count. -/
def recordAnswers (scope : Scope) (fails : Nat → Bool) (attemptId : Int)
    (questions : List Question) :
    List SubmittedAnswer → Store → Nat → Nat → Store × Option (Nat × Nat)
  | [], s, correct, w => (s, some (correct, w))
  | answer :: rest, s, correct, w =>
    match questions.find? (fun q => decide (q.id = answer.questionId)) with
    | none => recordAnswers scope fails attemptId questions rest s correct w
    | some question =>
      if scope.binds "UserAnswer" = false then (s, none)
      else if fails w then (s, none)
      else
        recordAnswers scope fails attemptId questions rest
          (s.createAnswer attemptId question.id answer.answerIndex
            (decide (question.correctOptionIndex = some answer.answerIndex))
            (stringifySnapshot (snapshotOf question)))
          (if question.correctOptionIndex = some answer.answerIndex then correct + 1
           else correct)
          (w + 1)

/-- The submit handler.  `scope` is the scope the handler runs in, `fails` the
fault plan of the persistence layer for this request (write number `0` is the
creation of the attempt), `userId` is `req.session.user.id` and `now` the value
of `new Date()`.  Line 346 names `Quiz`, `Question` and `Option`, line 357
names `QuizAttempt`; a name the scope does not bind throws and the `catch`
block (lines 398-404) answers 500.  Returns the store after the request and the
response. -/
def submitHandler (scope : Scope) (s : Store) (fails : Nat → Bool) (userId : Int)
    (body : SubmitBody) (now : Nat) : Store × SubmitResponse :=
  if (scope.binds "Quiz" && scope.binds "Question" && scope.binds "Option") = false then
    (s, .serverError)
  else
    match s.findQuiz body.quizId with
    | none => (s, .notFound)
    | some quiz =>
      if scope.binds "QuizAttempt" = false then (s, .serverError)
      else if fails 0 then (s, .serverError)
      else
        match recordAnswers scope fails s.nextAttemptId quiz.Questions body.answers
            (s.createAttempt userId body.quizId body.timeSpent now) 0 1 with
        | (s2, none) => (s2, .serverError)
        | (s2, some (correct, w)) =>
          if fails w then (s2, .serverError)
          else
            (s2.updateScore s.nextAttemptId (computeScore correct quiz.Questions.length),
              .ok s.nextAttemptId)

/-! ## `app.get('/quiz/sonuc/:attemptId')`, lines 408-466 -/

/-- The part of `req.session.user` the result handler reads: the id and the
truthiness of `isAdmin`. -/
structure SessionUser where
  id : Int
  isAdmin : Bool
deriving DecidableEq

/-- One element of `result.questions`; a field that reads `undefined` is
`none`. -/
structure ResultQuestion where
  id : Int
  text : Option Json
  options : Option Json
  correctAnswer : Option Json
  userAnswer : Int
  isCorrect : Bool

/-- The `result` object handed to the view. -/
structure ResultView where
  quizTitle : String
  totalQuestions : Nat
  correctAnswers : Nat
  wrongAnswers : Int
  timeSpent : Int
  score : JsNumber
  completedAt : Nat
  questions : List ResultQuestion

/-- The responses of the result handler: the rendered result, `404`, `403`
and `500`. -/
inductive ResultResponse where
  | ok (result : ResultView)
  | notFound
  | forbidden
  | serverError

/-- The callback of `userAnswers.map` (lines 443-453): parse the stored
snapshot and build the entry; `none` when `JSON.parse` or a property read
throws. -/
def resultQuestion (a : UserAnswer) : Option ResultQuestion :=
  match jsonParse a.questionSnapshot with
  | none => none
  | some q =>
    match q.getProp "text", q.getProp "options", q.getProp "correctAnswer" with
    | some text, some options, some correctAnswer =>
      some { id := a.questionId, text := text, options := options,
             correctAnswer := correctAnswer, userAnswer := a.answerIndex,
             isCorrect := a.isCorrect }
    | _, _, _ => none

/-- The call `userAnswers.map(...)`: `none` as soon as one callback throws. -/
def resultQuestions : List UserAnswer → Option (List ResultQuestion)
  | [] => some []
  | a :: rest =>
    match resultQuestion a with
    | none => none
    | some e =>
      match resultQuestions rest with
      | none => none
      | some es => some (e :: es)

/-- The body of the handler after the access check (lines 429-460): build
`result` from the attempt, its included quiz (`attempt.Quiz`, absent when no
quiz row matches) and its answers. -/
def buildResult (s : Store) (attempt : QuizAttempt) : ResultResponse :=
  match s.findQuiz attempt.quizId with
  | none => .serverError
  | some quiz =>
    match resultQuestions (s.answersOf attempt.id) with
    | none => .serverError
    | some questions =>
      .ok
        { quizTitle := quiz.title
          totalQuestions := (s.answersOf attempt.id).length
          correctAnswers := ((s.answersOf attempt.id).filter (fun a => a.isCorrect)).length
          wrongAnswers :=
            ((s.answersOf attempt.id).length : Int) -
              (((s.answersOf attempt.id).filter (fun a => a.isCorrect)).length : Int)
          timeSpent := attempt.timeSpent
          score := attempt.score
          completedAt := attempt.completedAt
          questions := questions }

/-- The result handler; `scope` is the scope the handler runs in and `user` is
`req.session.user`.  Line 410 names `QuizAttempt`, `Quiz` and `UserAnswer`; a
name the scope does not bind throws and the `catch` block (lines 462-465)
answers 500. -/
def resultHandler (scope : Scope) (s : Store) (user : SessionUser) (attemptId : Int) :
    ResultResponse :=
  if (scope.binds "QuizAttempt" && scope.binds "Quiz" && scope.binds "UserAnswer") = false then
    .serverError
  else
    match s.findAttempt attemptId with
    | none => .notFound
    | some attempt =>
      if attempt.userId ≠ user.id ∧ ¬ (user.isAdmin = true) then .forbidden
      else buildResult s attempt

/-! ## Vocabulary of the specification -/

/-- The parsed form of one array element of a snapshot: an `undefined` element
was written `null`. -/
def elemJson : Option String → Json
  | some s => .str s
  | none => .null

/-- The parsed form of a snapshot: the object with the members that were
written, in the order they were written. -/
def snapshotJson (s : Snapshot) : Json :=
  .obj ((match s.text with
      | some t => [("text", Json.str t)]
      | none => []) ++
    (("options", Json.arr (s.options.map elemJson)) ::
      (match s.correctAnswer with
      | some n => [("correctAnswer", Json.num (n : ℚ))]
      | none => [])))

/-- A fault plan under which no write fails. -/
def noFaults : Nat → Bool := fun _ => false

/-- Whether a submitted entry names a question of the quiz. -/
def matchesQuestion (questions : List Question) (a : SubmittedAnswer) : Bool :=
  (questions.find? (fun q => decide (q.id = a.questionId))).isSome

/-- The specification's `correctCount`: the number of questions of the quiz
whose submitted answer index equals the question's correct option index. -/
def specCorrectCount (questions : List Question) (answers : List SubmittedAnswer) : Nat :=
  questions.countP (fun q =>
    answers.any (fun a =>
      decide (a.questionId = q.id ∧ some a.answerIndex = q.correctOptionIndex)))

/-- The specification's scoring formula `round(100 * correctCount / totalQuestions)`
with ties rounded half up, that is `⌊100 * c / n + 1/2⌋ = ⌊(200 * c + n) / (2 * n)⌋`. -/
def roundHalfUpPercent (c n : Nat) : Nat := (200 * c + n) / (2 * n)

/-- The score column of the attempt with the given key, if there is one. -/
def Store.storedScore (s : Store) (attemptId : Int) : Option JsNumber :=
  (s.findAttempt attemptId).map (fun a => a.score)

/-- The answer row the submit handler writes for a submitted entry graded
against a question. -/
def answerRow (rowId attemptId : Int) (q : Question) (a : SubmittedAnswer) : UserAnswer :=
  { id := rowId, attemptId := attemptId, questionId := q.id, answerIndex := a.answerIndex,
    isCorrect := decide (q.correctOptionIndex = some a.answerIndex),
    questionSnapshot := stringifySnapshot (snapshotOf q) }

/-! ## Example data -/

/-- A quiz with four two-option questions (the correct options are the
first, the second, the first and the second). -/
def exQuiz : Quiz :=
  { id := 1, title := "Example",
    Questions :=
      [ ⟨1, some "q1", some 0, [⟨1, some "a"⟩, ⟨2, some "b"⟩]⟩,
        ⟨2, some "q2", some 1, [⟨3, some "c"⟩, ⟨4, some "d"⟩]⟩,
        ⟨3, some "q3", some 0, [⟨5, some "e"⟩, ⟨6, some "f"⟩]⟩,
        ⟨4, some "q4", some 1, [⟨7, some "g"⟩, ⟨8, some "h"⟩]⟩ ] }

/-- A store holding only the example quiz. -/
def exStore : Store :=
  { quizzes := [exQuiz], attempts := [], answers := [], nextAttemptId := 1, nextAnswerId := 1 }

/-- Question 1 answered correctly, question 2 incorrectly, question 3
correctly, question 4 omitted. -/
def exBody : SubmitBody :=
  { quizId := 1, answers := [⟨1, 0⟩, ⟨2, 0⟩, ⟨3, 0⟩], timeSpent := 30 }

/-- The example store with a recorded attempt of user `7` on the example quiz:
the rows the body of the submit handler writes for `exBody`. -/
def recordedStore : Store :=
  { quizzes := [exQuiz]
    attempts := [⟨1, 7, 1, JsNumber.ofNat 50, 30, 1000⟩]
    answers :=
      [ ⟨1, 1, 1, 0, true, stringifySnapshot ⟨some "q1", [some "a", some "b"], some 0⟩⟩,
        ⟨2, 1, 2, 0, false, stringifySnapshot ⟨some "q2", [some "c", some "d"], some 1⟩⟩,
        ⟨3, 1, 3, 0, true, stringifySnapshot ⟨some "q3", [some "e", some "f"], some 0⟩⟩ ]
    nextAttemptId := 2
    nextAnswerId := 4 }

/-- A quiz with forty questions, ids `1 … 40`, correct option index `0`. -/
def tieQuiz : Quiz :=
  { id := 1, title := "Forty",
    Questions := (List.range 40).map (fun i => ⟨(i : Int) + 1, some "q", some 0, []⟩) }

/-- A store holding only the forty-question quiz. -/
def tieStore : Store :=
  { quizzes := [tieQuiz], attempts := [], answers := [], nextAttemptId := 1, nextAnswerId := 1 }

/-- Questions `1 … 23` answered correctly, the other seventeen omitted. -/
def tieBody : SubmitBody :=
  { quizId := 1, answers := (List.range 23).map (fun i => ⟨(i : Int) + 1, 0⟩), timeSpent := 0 }

/-- A quiz with a single question. -/
def oneQuiz : Quiz :=
  { id := 1, title := "One",
    Questions := [⟨1, some "q1", some 0, [⟨1, some "a"⟩, ⟨2, some "b"⟩]⟩] }

/-- A store holding only the single-question quiz. -/
def oneStore : Store :=
  { quizzes := [oneQuiz], attempts := [], answers := [], nextAttemptId := 1, nextAnswerId := 1 }

/-- The correct answer to the single question, submitted twice. -/
def dupBody : SubmitBody :=
  { quizId := 1, answers := [⟨1, 0⟩, ⟨1, 0⟩], timeSpent := 0 }

/-- A store whose only quiz has no questions. -/
def emptyStore : Store :=
  { quizzes := [⟨1, "Empty", []⟩], attempts := [], answers := [], nextAttemptId := 1,
    nextAnswerId := 1 }

/-- A quiz as the rows written by `app.post('/api/quizzes')` (lines 254-267)
read back: the question has `question_text`, its options `option_text` and
`is_correct`, so `text`, `correctOptionIndex` and the options' `text` read
`undefined`. -/
def createdQuiz : Quiz :=
  { id := 1, title := "Created",
    Questions := [⟨1, none, none, [⟨1, none⟩, ⟨2, none⟩]⟩] }

/-- A store holding only the quiz written by the create handler. -/
def createdStore : Store :=
  { quizzes := [createdQuiz], attempts := [], answers := [], nextAttemptId := 1,
    nextAnswerId := 1 }

/-! # Theorems -/

/-! ## Binary64 rounding: error bounds -/

theorem log2Fuel_spec : ∀ fuel n : Nat, 0 < n → n ≤ fuel →
    2 ^ log2Fuel fuel n ≤ n ∧ n < 2 ^ (log2Fuel fuel n + 1)
  | 0, n, h, h' => by omega
  | fuel + 1, n, h, h' => by
    unfold log2Fuel
    split_ifs with h2
    · have : n = 1 := by omega
      subst this; simp
    · obtain ⟨h3, h4⟩ := log2Fuel_spec fuel (n / 2) (by omega) (by omega)
      constructor
      · rw [pow_succ]; omega
      · rw [pow_succ]; omega

theorem floorLog2_spec (n : Nat) (h : 0 < n) :
    2 ^ floorLog2 n ≤ n ∧ n < 2 ^ (floorLog2 n + 1) :=
  log2Fuel_spec n n h le_rfl

theorem rne_spec (a b : Nat) (hb : 0 < b) :
    2 * (b * rne a b) ≤ 2 * a + b ∧ 2 * a ≤ 2 * (b * rne a b) + b := by
  have h1 := Nat.div_add_mod a b
  have h2 := Nat.mod_lt a hb
  unfold rne
  split_ifs <;> (try simp only [Nat.mul_add, Nat.mul_one]) <;> omega

theorem rne_spec_rat (a b : Nat) (hb : 0 < b) :
    |(rne a b : ℚ) - (a : ℚ) / b| ≤ 1 / 2 := by
  obtain ⟨h1, h2⟩ := rne_spec a b hb
  have hb' : (0 : ℚ) < b := by exact_mod_cast hb
  have h1' : (2 : ℚ) * (b * rne a b) ≤ 2 * a + b := by exact_mod_cast h1
  have h2' : (2 : ℚ) * a ≤ 2 * (b * rne a b) + b := by exact_mod_cast h2
  have hx : (a : ℚ) = (a : ℚ) / b * b := by field_simp
  generalize (a : ℚ) / b = x at hx ⊢
  rw [hx] at h1' h2'
  rw [abs_le]
  constructor
  · by_contra hc
    push_neg at hc
    nlinarith
  · by_contra hc
    push_neg at hc
    nlinarith

theorem ilog2_spec (a b : Nat) (ha : 0 < a) (hb : 0 < b) :
    (2 : ℚ) ^ ilog2 a b ≤ (a : ℚ) / b ∧ (a : ℚ) / b < (2 : ℚ) ^ (ilog2 a b + 1) := by
  obtain ⟨a1, a2⟩ := floorLog2_spec a ha
  obtain ⟨b1, b2⟩ := floorLog2_spec b hb
  have hb' : (0 : ℚ) < b := by exact_mod_cast hb
  have ha' : (0 : ℚ) < a := by exact_mod_cast ha
  have a1' : (2 : ℚ) ^ floorLog2 a ≤ a := by exact_mod_cast a1
  have a2' : (a : ℚ) < 2 ^ (floorLog2 a + 1) := by exact_mod_cast a2
  have b1' : (2 : ℚ) ^ floorLog2 b ≤ b := by exact_mod_cast b1
  have b2' : (b : ℚ) < 2 ^ (floorLog2 b + 1) := by exact_mod_cast b2
  have two : (2 : ℚ) ≠ 0 := by norm_num
  unfold ilog2
  split_ifs with h h3 h3
  · obtain ⟨d, hd⟩ := Nat.exists_eq_add_of_le h
    have hd' : floorLog2 a - floorLog2 b = d := by omega
    rw [hd'] at h3 ⊢
    have h3' : (b : ℚ) * 2 ^ d ≤ a := by exact_mod_cast h3
    rw [hd, pow_succ, pow_add] at a2'
    rw [le_div_iff₀ hb', div_lt_iff₀ hb', zpow_add_one₀ two, zpow_natCast]
    have hp : (0 : ℚ) < 2 ^ d := by positivity
    constructor
    · linarith
    · nlinarith
  · obtain ⟨d, hd⟩ := Nat.exists_eq_add_of_le h
    have hd' : floorLog2 a - floorLog2 b = d := by omega
    rw [hd'] at h3 ⊢
    have h3' : (a : ℚ) < b * 2 ^ d := by
      have := not_le.mp h3
      exact_mod_cast this
    rw [hd, pow_add] at a1'
    rw [pow_succ] at b2'
    rw [le_div_iff₀ hb', div_lt_iff₀ hb', sub_add_cancel, zpow_sub_one₀ two, zpow_natCast]
    have hp : (0 : ℚ) < 2 ^ d := by positivity
    have hq : (0 : ℚ) < 2 ^ floorLog2 b := by positivity
    constructor
    · rw [← sub_nonneg]
      have : (a : ℚ) - 2 ^ d * 2⁻¹ * b = (a - 2 ^ floorLog2 b * 2 ^ d) + 2 ^ d * 2⁻¹ * (2 ^ floorLog2 b * 2 - b) := by
        field_simp; ring
      rw [this]
      have : (0 : ℚ) ≤ 2 ^ d * 2⁻¹ * (2 ^ floorLog2 b * 2 - b) := by
        apply mul_nonneg (by positivity); linarith
      linarith
    · linarith
  · have h' : floorLog2 a ≤ floorLog2 b := by omega
    obtain ⟨d, hd⟩ := Nat.exists_eq_add_of_le h'
    have hd' : floorLog2 b - floorLog2 a = d := by omega
    rw [hd'] at h3 ⊢
    have h3' : (b : ℚ) ≤ a * 2 ^ d := by exact_mod_cast h3
    rw [hd, pow_add] at b1'
    rw [pow_succ] at a2'
    have hp : (0 : ℚ) < 2 ^ d := by positivity
    rw [le_div_iff₀ hb', div_lt_iff₀ hb', zpow_add_one₀ two, zpow_neg, zpow_natCast]
    constructor
    · rw [inv_mul_le_iff₀ hp]; linarith
    · have hi : (2 : ℚ) ^ d * (2 ^ d)⁻¹ = 1 := mul_inv_cancel₀ hp.ne'
      have hpi : (0 : ℚ) < (2 ^ d)⁻¹ := inv_pos.mpr hp
      have h5 : (a : ℚ) * 2 ^ d < 2 * b := by nlinarith
      have h6 : (a : ℚ) * 2 ^ d * (2 ^ d)⁻¹ < 2 * b * (2 ^ d)⁻¹ :=
        mul_lt_mul_of_pos_right h5 hpi
      rw [mul_assoc, hi, mul_one] at h6
      linarith
  · have h' : floorLog2 a ≤ floorLog2 b := by omega
    obtain ⟨d, hd⟩ := Nat.exists_eq_add_of_le h'
    have hd' : floorLog2 b - floorLog2 a = d := by omega
    rw [hd'] at h3 ⊢
    have h3' : (a : ℚ) * 2 ^ d < b := by
      have := not_le.mp h3
      exact_mod_cast this
    rw [hd, pow_succ, pow_add] at b2'
    have hp : (0 : ℚ) < 2 ^ d := by positivity
    have hi : (2 : ℚ) ^ d * (2 ^ d)⁻¹ = 1 := mul_inv_cancel₀ hp.ne'
    have hpi : (0 : ℚ) < (2 ^ d)⁻¹ := inv_pos.mpr hp
    rw [le_div_iff₀ hb', div_lt_iff₀ hb', sub_add_cancel, zpow_sub_one₀ two, zpow_neg,
      zpow_natCast]
    constructor
    · have h5 : (b : ℚ) ≤ 2 * (a * 2 ^ d) := by nlinarith
      have h6 : (b : ℚ) * (2 ^ d)⁻¹ ≤ 2 * (a * 2 ^ d) * (2 ^ d)⁻¹ :=
        mul_le_mul_of_nonneg_right h5 hpi.le
      rw [mul_assoc, mul_assoc, hi, mul_one] at h6
      have : (2 ^ d : ℚ)⁻¹ * 2⁻¹ * b = 2⁻¹ * (b * (2 ^ d)⁻¹) := by ring
      rw [this]
      linarith
    · have h6 : (a : ℚ) * 2 ^ d * (2 ^ d)⁻¹ < b * (2 ^ d)⁻¹ :=
        mul_lt_mul_of_pos_right h3' hpi
      rw [mul_assoc, hi, mul_one] at h6
      linarith

theorem roundDouble_error (a b : Nat) (hb : 0 < b) :
    |(roundDouble a b).toRat - (a : ℚ) / b| ≤ (a : ℚ) / b / 2 ^ 53 := by
  rcases Nat.eq_zero_or_pos a with ha | ha
  · subst ha
    simp [roundDouble, Dbl.toRat]
  obtain ⟨k1, k2⟩ := ilog2_spec a b ha hb
  have hb' : (0 : ℚ) < b := by exact_mod_cast hb
  have two : (2 : ℚ) ≠ 0 := by norm_num
  unfold roundDouble
  rw [if_neg ha.ne']
  generalize ilog2 a b = k at k1 k2 ⊢
  split_ifs with h
  · obtain ⟨s, hs⟩ : ∃ s : Nat, (52 - k) = (s : Int) := ⟨(52 - k).toNat, by omega⟩
    have hk : k - 52 = -(s : Int) := by omega
    have hk' : k = 52 - (s : Int) := by omega
    simp only [Dbl.toRat, hs, Int.toNat_ofNat, hk, zpow_neg, zpow_natCast]
    have hr := rne_spec_rat (a * 2 ^ s) b hb
    push_cast at hr
    have hp : (0 : ℚ) < 2 ^ s := by positivity
    have hi : (2 : ℚ) ^ s * (2 ^ s)⁻¹ = 1 := mul_inv_cancel₀ hp.ne'
    have hpi : (0 : ℚ) < (2 ^ s)⁻¹ := inv_pos.mpr hp
    rw [hk', zpow_sub₀ two, zpow_natCast, div_le_iff₀ hp] at k1
    have k1' : (2 : ℚ) ^ 52 ≤ (a : ℚ) / b * 2 ^ s := by
      have e : (2 : ℚ) ^ (52 : ℤ) = 2 ^ 52 := by norm_num
      rw [e] at k1
      exact k1
    have hx : (a : ℚ) * 2 ^ s / b = (a : ℚ) / b * 2 ^ s := by ring
    rw [hx] at hr
    generalize (a : ℚ) / b = x at k1' hr ⊢
    generalize (rne (a * 2 ^ s) b : ℚ) = M at hr ⊢
    rw [abs_le] at hr ⊢
    obtain ⟨l, u⟩ := hr
    have e1 : (2 : ℚ) ^ 52 * (2 ^ s)⁻¹ ≤ x := by
      have := mul_le_mul_of_nonneg_right k1' hpi.le
      rwa [mul_assoc, hi, mul_one] at this
    have e3 : (M - x * 2 ^ s) * (2 ^ s)⁻¹ = M * (2 ^ s)⁻¹ - x := by
      rw [sub_mul, mul_assoc, hi, mul_one]
    have e4 := mul_le_mul_of_nonneg_right l hpi.le
    have e5 := mul_le_mul_of_nonneg_right u hpi.le
    rw [e3] at e4 e5
    norm_num at e1 ⊢
    constructor <;> linarith
  · obtain ⟨t, ht⟩ : ∃ t : Nat, (k - 52) = (t : Int) := ⟨(k - 52).toNat, by omega⟩
    have hk' : k = 52 + (t : Int) := by omega
    simp only [Dbl.toRat, ht, Int.toNat_ofNat, zpow_natCast]
    have hp : (0 : ℚ) < 2 ^ t := by positivity
    have hr := rne_spec_rat a (b * 2 ^ t) (by positivity)
    push_cast at hr
    have hi : (2 : ℚ) ^ t * (2 ^ t)⁻¹ = 1 := mul_inv_cancel₀ hp.ne'
    rw [hk', zpow_add₀ two, zpow_natCast] at k1
    have k1' : (2 : ℚ) ^ 52 * 2 ^ t ≤ (a : ℚ) / b := by
      have e : (2 : ℚ) ^ (52 : ℤ) = 2 ^ 52 := by norm_num
      rw [e] at k1
      exact k1
    have hx : (a : ℚ) / (b * 2 ^ t) = (a : ℚ) / b * (2 ^ t)⁻¹ := by
      field_simp
    rw [hx] at hr
    generalize (a : ℚ) / b = x at k1' hr ⊢
    generalize (rne a (b * 2 ^ t) : ℚ) = M at hr ⊢
    rw [abs_le] at hr ⊢
    obtain ⟨l, u⟩ := hr
    have e3 : (M - x * (2 ^ t)⁻¹) * 2 ^ t = M * 2 ^ t - x := by
      rw [sub_mul, mul_assoc, inv_mul_cancel₀ hp.ne', mul_one]
    have e4 := mul_le_mul_of_nonneg_right l hp.le
    have e5 := mul_le_mul_of_nonneg_right u hp.le
    rw [e3] at e4 e5
    norm_num at k1' ⊢
    constructor <;> linarith

theorem mul_error (x y : Dbl) :
    |(x.mul y).toRat - x.toRat * y.toRat| ≤ x.toRat * y.toRat / 2 ^ 53 := by
  have two : (2 : ℚ) ≠ 0 := by norm_num
  unfold Dbl.mul
  split_ifs with h
  · obtain ⟨s, hs⟩ : ∃ s : Nat, x.e + y.e = (s : Int) := ⟨(x.e + y.e).toNat, by omega⟩
    have key : x.toRat * y.toRat = ((x.m * y.m * 2 ^ s : Nat) : ℚ) / (1 : Nat) := by
      unfold Dbl.toRat
      push_cast
      rw [div_one, ← zpow_natCast, ← hs, zpow_add₀ two]
      ring
    rw [hs, Int.toNat_ofNat, key]
    exact roundDouble_error _ _ Nat.one_pos
  · obtain ⟨s, hs⟩ : ∃ s : Nat, -(x.e + y.e) = (s : Int) := ⟨(-(x.e + y.e)).toNat, by omega⟩
    have key : x.toRat * y.toRat = ((x.m * y.m : Nat) : ℚ) / (2 ^ s : Nat) := by
      unfold Dbl.toRat
      push_cast
      rw [← zpow_natCast, ← hs, zpow_neg, div_eq_mul_inv, inv_inv, zpow_add₀ two]
      ring
    rw [hs, Int.toNat_ofNat, key]
    exact roundDouble_error _ _ (by positivity)

theorem round_spec (x : Dbl) :
    (x.round : ℚ) ≤ x.toRat + 1 / 2 ∧ x.toRat + 1 / 2 < (x.round : ℚ) + 1 := by
  unfold Dbl.round Dbl.toRat
  split_ifs with h
  · obtain ⟨s, hs⟩ : ∃ s : Nat, x.e = (s : Int) := ⟨x.e.toNat, by omega⟩
    rw [hs, Int.toNat_ofNat, zpow_natCast]
    push_cast
    constructor <;> linarith
  · obtain ⟨s, hs⟩ : ∃ s : Nat, -x.e = (s : Int) := ⟨(-x.e).toNat, by omega⟩
    have hs' : x.e = -(s : Int) := by omega
    rw [hs, Int.toNat_ofNat, hs', zpow_neg, zpow_natCast]
    have hp : (0 : ℚ) < 2 ^ s := by positivity
    have hpn : 0 < 2 * 2 ^ s := by positivity
    have h1 := Nat.div_add_mod (2 * x.m + 2 ^ s) (2 * 2 ^ s)
    have h2 := Nat.mod_lt (2 * x.m + 2 ^ s) hpn
    generalize (2 * x.m + 2 ^ s) / (2 * 2 ^ s) = q at h1 ⊢
    generalize (2 * x.m + 2 ^ s) % (2 * 2 ^ s) = r at h1 h2
    have h1' : (2 : ℚ) * 2 ^ s * q + r = 2 * x.m + 2 ^ s := by exact_mod_cast h1
    have h2' : (r : ℚ) < 2 * 2 ^ s := by exact_mod_cast h2
    have h3 : (0 : ℚ) ≤ r := by positivity
    have e : (x.m : ℚ) * (2 ^ s)⁻¹ + 1 / 2 = (2 * x.m + 2 ^ s) / (2 * 2 ^ s) := by
      field_simp
      ring
    rw [e, le_div_iff₀ (by positivity), div_lt_iff₀ (by positivity)]
    constructor <;> nlinarith

theorem computeScore_pos (c n : Nat) (hn : 0 < n) :
    computeScore c n = JsNumber.ofNat ((roundDouble c n).mul ⟨100, 0⟩).round := by
  simp [computeScore, JsNumber.divCounts, JsNumber.mulConst, JsNumber.mathRound, hn.ne']

/-- The product `fl(fl(c / n) * 100)` differs from the exact percentage by less
than `2 ^ (-45)` when `c ≤ n`. -/
theorem percent_error (c n : Nat) (hn : 0 < n) (hc : c ≤ n) :
    |((roundDouble c n).mul ⟨100, 0⟩).toRat - 100 * (c : ℚ) / n| ≤ 1 / 2 ^ 45 := by
  have h1 := roundDouble_error c n hn
  have h2 := mul_error (roundDouble c n) ⟨100, 0⟩
  have e100 : (⟨100, 0⟩ : Dbl).toRat = 100 := by simp [Dbl.toRat]
  rw [e100] at h2
  have hn' : (0 : ℚ) < n := by exact_mod_cast hn
  have hx0 : (0 : ℚ) ≤ (c : ℚ) / n := by positivity
  have hx1 : (c : ℚ) / n ≤ 1 := by
    rw [div_le_one hn']
    exact_mod_cast hc
  have e : 100 * (c : ℚ) / n = 100 * ((c : ℚ) / n) := by ring
  rw [e]
  generalize (c : ℚ) / n = x at h1 hx0 hx1 ⊢
  generalize (roundDouble c n).toRat = X at h1 h2 ⊢
  generalize (X : ℚ) = X at h1 h2 ⊢
  generalize (Dbl.mul _ _).toRat = Z at h2 ⊢
  rw [abs_le] at h1 h2 ⊢
  norm_num at h1 h2 ⊢
  constructor <;> linarith

/-- For `c ≤ n < 2 ^ 32` the computed score is an integer nearest to the exact
percentage `100 * c / n`. -/
theorem score_nearest (c n : Nat) (hn : 0 < n) (hc : c ≤ n) (hN : n < 2 ^ 32) :
    2 * n * ((roundDouble c n).mul ⟨100, 0⟩).round ≤ 200 * c + n ∧
      200 * c ≤ 2 * n * ((roundDouble c n).mul ⟨100, 0⟩).round + n := by
  have h1 := percent_error c n hn hc
  obtain ⟨r1, r2⟩ := round_spec ((roundDouble c n).mul ⟨100, 0⟩)
  have hn' : (0 : ℚ) < n := by exact_mod_cast hn
  have hN' : (n : ℚ) < 4294967296 := by
    have : n < 4294967296 := by norm_num at hN; exact hN
    exact_mod_cast this
  have hx : (c : ℚ) = (c : ℚ) / n * n := by field_simp
  have e : 100 * (c : ℚ) / n = 100 * ((c : ℚ) / n) := by ring
  rw [e] at h1
  generalize ((roundDouble c n).mul ⟨100, 0⟩).round = k at r1 r2 ⊢
  generalize (Dbl.mul _ _).toRat = Z at h1 r1 r2
  rw [abs_le] at h1
  obtain ⟨l, u⟩ := h1
  constructor
  · by_contra hcon
    have hcon' : 200 * c + n + 1 ≤ 2 * n * k := by omega
    have hq : (200 : ℚ) * c + n + 1 ≤ 2 * n * k := by exact_mod_cast hcon'
    rw [hx] at hq
    generalize (c : ℚ) / n = x at hq l u
    have hk : (k : ℚ) ≤ 100 * x + 1 / 2 ^ 45 + 1 / 2 := by linarith
    have := mul_le_mul_of_nonneg_left hk hn'.le
    norm_num at this
    linarith
  · by_contra hcon
    have hcon' : 2 * n * k + n + 1 ≤ 200 * c := by omega
    have hq : (2 : ℚ) * n * k + n + 1 ≤ 200 * c := by exact_mod_cast hcon'
    rw [hx] at hq
    generalize (c : ℚ) / n = x at hq l u
    have hk : 100 * x - 1 / 2 ^ 45 - 1 / 2 ≤ (k : ℚ) := by linarith
    have := mul_le_mul_of_nonneg_left hk hn'.le
    norm_num at this
    linarith

/-- When the exact percentage is not halfway between two integers, the computed
score is the round-half-up value. -/
theorem score_half_up (c n : Nat) (hn : 0 < n) (hc : c ≤ n) (hN : n < 2 ^ 32)
    (htie : (200 * c + n) % (2 * n) ≠ 0) :
    ((roundDouble c n).mul ⟨100, 0⟩).round = (200 * c + n) / (2 * n) := by
  obtain ⟨h1, h2⟩ := score_nearest c n hn hc hN
  generalize ((roundDouble c n).mul ⟨100, 0⟩).round = k at h1 h2 ⊢
  have hlt : 200 * c + n < 2 * n * k + 2 * n := by
    rcases Nat.lt_or_ge (200 * c + n) (2 * n * k + 2 * n) with h | h
    · exact h
    · exfalso
      have he : 200 * c + n = 2 * n * (k + 1) := by rw [Nat.mul_add]; omega
      rw [he] at htie
      simp at htie
  symm
  apply Nat.div_eq_of_lt_le
  · rw [Nat.mul_comm]; exact h1
  · have : (k + 1) * (2 * n) = 2 * n * k + 2 * n := by ring
    rw [this]
    exact hlt

/-- With at most `n` correct answers out of `n ≥ 1` questions the computed
score never exceeds `100`. -/
theorem score_le_hundred (c n : Nat) (hn : 0 < n) (hc : c ≤ n) :
    ((roundDouble c n).mul ⟨100, 0⟩).round ≤ 100 := by
  have h1 := percent_error c n hn hc
  obtain ⟨r1, _⟩ := round_spec ((roundDouble c n).mul ⟨100, 0⟩)
  have hn' : (0 : ℚ) < n := by exact_mod_cast hn
  have hx1 : 100 * (c : ℚ) / n ≤ 100 := by
    rw [div_le_iff₀ hn']
    have : (c : ℚ) ≤ n := by exact_mod_cast hc
    linarith
  generalize ((roundDouble c n).mul ⟨100, 0⟩).round = k at r1 ⊢
  generalize (Dbl.mul _ _).toRat = Z at h1 r1
  rw [abs_le] at h1
  have hk : (k : ℚ) < 101 := by
    norm_num at h1
    linarith [h1.2]
  have : k < 101 := by exact_mod_cast hk
  omega

/-! ## JSON: parsing what `JSON.stringify` wrote -/

theorem ofNat_toNat_char (c : Char) : Char.ofNat c.toNat = c := by
  simp [Char.ofNat, Char.toNat, c.valid]
  rfl

theorem skipWs_cons (c : Char) (r : List Char) (h : isWs c = false) :
    skipWs (c :: r) = c :: r := by
  simp [skipWs, h]

theorem hexVal_hexDigit (d : Nat) (h : d < 16) : hexVal (hexDigit d) = some d := by
  interval_cases d <;> decide

/-- Scanning the escape of one character appends that character. -/
theorem parseStrBody_quoteChar (c : Char) (acc tail : List Char) :
    parseStrBody .plain acc (quoteChar c ++ tail) = parseStrBody .plain (c :: acc) tail := by
  unfold quoteChar
  split_ifs with h1 h2 h3 h4 h5 h6 h7 h8
  · subst h1
    rfl
  · subst h2
    rfl
  · have : c = Char.ofNat 8 := by rw [← h3, ofNat_toNat_char]
    subst this
    rfl
  · have : c = Char.ofNat 12 := by rw [← h4, ofNat_toNat_char]
    subst this
    rfl
  · have : c = Char.ofNat 10 := by rw [← h5, ofNat_toNat_char]
    subst this
    rfl
  · have : c = Char.ofNat 13 := by rw [← h6, ofNat_toNat_char]
    subst this
    rfl
  · have : c = Char.ofNat 9 := by rw [← h7, ofNat_toNat_char]
    subst this
    rfl
  · obtain ⟨n, hn⟩ : ∃ n, c.toNat = n := ⟨_, rfl⟩
    have hc : c = Char.ofNat n := by rw [← hn, ofNat_toNat_char]
    rw [hn] at h8 ⊢
    subst hc
    clear h1 h2 h3 h4 h5 h6 h7 hn
    interval_cases n <;> rfl
  · simp [parseStrBody, h1, h2, h8]

theorem parseStrBody_flatMap (s : List Char) : ∀ (acc tail : List Char),
    parseStrBody .plain acc (s.flatMap quoteChar ++ chQuote :: tail) =
      some (String.mk (acc.reverse ++ s), tail) := by
  induction s with
  | nil =>
    intro acc tail
    simp [parseStrBody]
  | cons c s ih =>
    intro acc tail
    rw [List.flatMap_cons, List.append_assoc, parseStrBody_quoteChar, ih]
    simp

/-- Reading back a quoted string. -/
theorem parseStrBody_quoteJSON (s : String) (tail : List Char) :
    ∃ body, quoteJSON s ++ tail = chQuote :: body ∧
      parseStrBody .plain [] body = some (s, tail) := by
  refine ⟨s.data.flatMap quoteChar ++ chQuote :: tail, ?_, ?_⟩
  · simp [quoteJSON]
  · rw [parseStrBody_flatMap]
    simp

theorem digitVal_digit (n : Nat) (h : n < 10) : digitVal (Char.ofNat (48 + n)) = some n := by
  interval_cases n <;> decide

/-- The numeral written for `n` starts with a digit that is zero only for
`n = 0`, and reading its digits back accumulates `n`. -/
theorem digitsFuel_spec : ∀ (fuel n : Nat) (acc : List Char), n < fuel →
    ∃ c ds d, digitsFuel fuel n acc = c :: (ds ++ acc) ∧ digitVal c = some d ∧
      (d = 0 → n = 0 ∧ ds = []) ∧
      ∀ v k tail, takeDigits (c :: (ds ++ tail)) v k =
        takeDigits tail (v * 10 ^ (ds.length + 1) + n) (k + (ds.length + 1))
  | 0, n, acc, h => by omega
  | fuel + 1, n, acc, h => by
    unfold digitsFuel
    split_ifs with h10
    · refine ⟨Char.ofNat (48 + n), [], n, rfl, digitVal_digit n h10, ?_, ?_⟩
      · intro h0
        exact ⟨h0, rfl⟩
      · intro v k tail
        simp [takeDigits, digitVal_digit n h10]
    · obtain ⟨c, ds, d, e1, e2, e3, e4⟩ :=
        digitsFuel_spec fuel (n / 10) (Char.ofNat (48 + n % 10) :: acc) (by omega)
      refine ⟨c, ds ++ [Char.ofNat (48 + n % 10)], d, ?_, e2, ?_, ?_⟩
      · rw [e1]
        simp
      · intro h0
        have := (e3 h0).1
        omega
      · intro v k tail
        have hm : n % 10 < 10 := Nat.mod_lt _ (by norm_num)
        have hdm := Nat.div_add_mod n 10
        rw [List.append_assoc, e4 v k ([Char.ofNat (48 + n % 10)] ++ tail)]
        simp only [List.singleton_append, takeDigits, digitVal_digit _ hm, List.length_append,
          List.length_singleton]
        congr 1
        rw [pow_succ 10 (ds.length + 1)]
        have : (v * 10 ^ (ds.length + 1) + n / 10) * 10 + n % 10
            = v * (10 ^ (ds.length + 1) * 10) + (10 * (n / 10) + n % 10) := by ring
        rw [this, hdm]

theorem digitVal_head_ne (c : Char) (d : Nat) (h : digitVal c = some d) :
    isWs c = false ∧ c ≠ chQuote ∧ c ≠ chLBracket ∧ c ≠ chLBrace ∧ c ≠ 'n' ∧ c ≠ 't' ∧
      c ≠ 'f' ∧ c ≠ chMinus := by
  unfold digitVal at h
  split_ifs at h with hc
  refine ⟨?_, ?_, ?_, ?_, ?_, ?_, ?_, ?_⟩
  · simp only [isWs, Bool.or_eq_false_iff, decide_eq_false_iff_not]
    omega
  all_goals
    intro hx
    subst hx
    revert hc
    decide

/-- No digit starts at a closing brace. -/
theorem takeDigits_rbrace (t : List Char) (v k : Nat) :
    takeDigits (chRBrace :: t) v k = (v, k, chRBrace :: t) := by
  have : digitVal chRBrace = none := by decide
  simp [takeDigits, this]

theorem parseUnsigned_natDigits (n : Nat) (t : List Char) :
    ∃ c ds d, natDigits n = c :: ds ∧ digitVal c = some d ∧
      parseUnsigned (natDigits n ++ chRBrace :: t) = some ((n : ℚ), chRBrace :: t) := by
  obtain ⟨c, ds, d, e1, e2, e3, e4⟩ := digitsFuel_spec (n + 1) n [] (Nat.lt_succ_self n)
  rw [List.append_nil] at e1
  refine ⟨c, ds, d, e1, e2, ?_⟩
  unfold natDigits
  have hfrac : parseFraction (chRBrace :: t) = some (0, 0, chRBrace :: t) := by
    have : chRBrace ≠ chDot := by decide
    simp [parseFraction, this]
  have hexp : parseExponent (chRBrace :: t) = some (0, chRBrace :: t) := by
    have h1 : chRBrace ≠ 'e' := by decide
    have h2 : chRBrace ≠ 'E' := by decide
    simp [parseExponent, h1, h2]
  have hint : parseIntPart (c :: (ds ++ chRBrace :: t)) = some (n, chRBrace :: t) := by
    unfold parseIntPart
    simp only [e2]
    split_ifs with h0
    · obtain ⟨hn, hds⟩ := e3 h0
      subst hn hds
      rfl
    · have hc : ∀ X, takeDigits (c :: X) 0 0 = takeDigits X d 1 := by
        intro X
        simp [takeDigits, e2]
      have h5 := e4 0 0 (chRBrace :: t)
      rw [hc, takeDigits_rbrace] at h5
      rw [h5]
      simp
  rw [e1, List.cons_append]
  unfold parseUnsigned
  simp only [hint, hfrac, hexp]
  simp

theorem parseNumber_intDigits (z : Int) (t : List Char) :
    ∃ c ds, intDigits z ++ chRBrace :: t = c :: ds ∧ isWs c = false ∧ c ≠ chQuote ∧
      c ≠ chLBracket ∧ c ≠ chLBrace ∧ c ≠ 'n' ∧ c ≠ 't' ∧ c ≠ 'f' ∧
      parseNumber (c :: ds) = some ((z : ℚ), chRBrace :: t) := by
  obtain ⟨c, ds, d, e1, e2, e3⟩ := parseUnsigned_natDigits z.natAbs t
  unfold intDigits
  split_ifs with hz
  · refine ⟨chMinus, natDigits z.natAbs ++ chRBrace :: t, rfl, by decide, by decide, by decide,
      by decide, by decide, by decide, by decide, ?_⟩
    simp only [parseNumber, if_true, e3]
    have h2 : ((z.natAbs : ℕ) : ℚ) = -(z : ℚ) := by
      have h1 : ((z.natAbs : ℕ) : ℚ) = ((|z| : ℤ) : ℚ) := Nat.cast_natAbs z
      rw [h1, abs_of_neg hz]
      push_cast
      rfl
    rw [h2, neg_neg]
  · obtain ⟨w1, w2, w3, w4, w5, w6, w7, w8⟩ := digitVal_head_ne c d e2
    refine ⟨c, ds ++ chRBrace :: t, by rw [e1]; rfl, w1, w2, w3, w4, w5, w6, w7, ?_⟩
    have h3 : parseNumber (c :: (ds ++ chRBrace :: t)) =
        parseUnsigned (c :: (ds ++ chRBrace :: t)) := by
      simp [parseNumber, w8]
    rw [h3, ← List.cons_append, ← e1, e3]
    have : ((z.natAbs : ℕ) : ℚ) = (z : ℚ) := by
      have h1 : ((z.natAbs : ℕ) : ℚ) = ((|z| : ℤ) : ℚ) := Nat.cast_natAbs z
      rw [h1, abs_of_nonneg (not_lt.mp hz)]
    rw [this]

theorem parseValue_quoteJSON (fuel : Nat) (hf : 1 ≤ fuel) (s : String) (tail : List Char) :
    parseValue fuel (quoteJSON s ++ tail) = some (.str s, tail) := by
  obtain ⟨f, rfl⟩ := Nat.exists_eq_add_of_le hf
  obtain ⟨body, e, hp⟩ := parseStrBody_quoteJSON s tail
  have hw : isWs chQuote = false := by decide
  rw [e, Nat.add_comm, parseValue, skipWs_cons _ _ hw]
  simp [hp]

theorem parseValue_intDigits (fuel : Nat) (hf : 1 ≤ fuel) (z : Int) (t : List Char) :
    parseValue fuel (intDigits z ++ chRBrace :: t) = some (.num (z : ℚ), chRBrace :: t) := by
  obtain ⟨f, rfl⟩ := Nat.exists_eq_add_of_le hf
  obtain ⟨c, ds, e, w1, w2, w3, w4, w5, w6, w7, hp⟩ := parseNumber_intDigits z t
  rw [e, Nat.add_comm, parseValue, skipWs_cons _ _ w1]
  simp [w2, w3, w4, w5, w6, w7, hp]

theorem parseValue_null (fuel : Nat) (hf : 1 ≤ fuel) (tail : List Char) :
    parseValue fuel ('n' :: 'u' :: 'l' :: 'l' :: tail) = some (.null, tail) := by
  obtain ⟨f, rfl⟩ := Nat.exists_eq_add_of_le hf
  have hw : isWs 'n' = false := by decide
  have h1 : ('n' : Char) ≠ chQuote := by decide
  have h2 : ('n' : Char) ≠ chLBracket := by decide
  have h3 : ('n' : Char) ≠ chLBrace := by decide
  rw [Nat.add_comm, parseValue, skipWs_cons _ _ hw]
  simp [h1, h2, h3]

theorem parseValue_elemJSON (fuel : Nat) (hf : 1 ≤ fuel) (e : Option String)
    (tail : List Char) :
    parseValue fuel (elemJSON e ++ tail) = some (elemJson e, tail) := by
  cases e with
  | none => exact parseValue_null fuel hf tail
  | some s => exact parseValue_quoteJSON fuel hf s tail

theorem elemJSON_head (e : Option String) (tail : List Char) :
    ∃ c body, elemJSON e ++ tail = c :: body ∧ isWs c = false ∧ c ≠ chRBracket := by
  cases e with
  | none => exact ⟨'n', 'u' :: 'l' :: 'l' :: tail, rfl, by decide, by decide⟩
  | some s =>
    exact ⟨chQuote, s.data.flatMap quoteChar ++ chQuote :: tail, by simp [elemJSON, quoteJSON],
      by decide, by decide⟩

theorem joinElems_head (e : Option String) (es : List (Option String)) (tail : List Char) :
    ∃ c body, joinElems (e :: es) ++ tail = c :: body ∧ isWs c = false ∧ c ≠ chRBracket := by
  cases es with
  | nil => exact elemJSON_head e tail
  | cons t rest =>
    obtain ⟨c, body, h1, h2, h3⟩ := elemJSON_head e (chComma :: (joinElems (t :: rest) ++ tail))
    exact ⟨c, body, by rw [← h1]; simp [joinElems], h2, h3⟩

theorem parseElems_joinElems (es : List (Option String)) : ∀ (e : Option String) (fuel : Nat)
    (acc : List Json) (tail : List Char), es.length + 2 ≤ fuel →
    parseElems fuel (joinElems (e :: es) ++ chRBracket :: tail) acc =
      some (.arr (acc.reverse ++ (e :: es).map elemJson), tail) := by
  induction es with
  | nil =>
    intro e fuel acc tail hf
    obtain ⟨f, rfl⟩ := Nat.exists_eq_add_of_le hf
    have hw : isWs chRBracket = false := by decide
    have hc : chRBracket ≠ chComma := by decide
    rw [show List.length ([] : List (Option String)) + 2 + f = (f + 1) + 1 by simp; omega]
    rw [parseElems, joinElems, parseValue_elemJSON (f + 1) (by omega)]
    simp [skipWs_cons _ _ hw, hc]
  | cons t rest ih =>
    intro e fuel acc tail hf
    obtain ⟨f, rfl⟩ := Nat.exists_eq_add_of_le hf
    have hw : isWs chComma = false := by decide
    rw [show (t :: rest).length + 2 + f = (rest.length + 2 + f) + 1 by simp; omega]
    rw [parseElems, joinElems, List.append_assoc,
      parseValue_elemJSON (rest.length + 2 + f) (by omega)]
    simp only [List.cons_append, skipWs_cons _ _ hw, if_true]
    rw [ih t (rest.length + 2 + f) (elemJson e :: acc) tail (by omega)]
    simp

theorem parseValue_array (opts : List (Option String)) (fuel : Nat)
    (hf : opts.length + 2 ≤ fuel) (tail : List Char) :
    parseValue fuel (chLBracket :: (joinElems opts ++ chRBracket :: tail)) =
      some (.arr (opts.map elemJson), tail) := by
  obtain ⟨f, rfl⟩ := Nat.exists_eq_add_of_le hf
  have hw : isWs chLBracket = false := by decide
  have h1 : chLBracket ≠ chQuote := by decide
  rw [show opts.length + 2 + f = (opts.length + 1 + f) + 1 by omega]
  rw [parseValue, skipWs_cons _ _ hw]
  simp only [h1, if_false, if_true]
  cases opts with
  | nil =>
    have hw2 : isWs chRBracket = false := by decide
    simp [joinElems, skipWs_cons _ _ hw2]
  | cons e es =>
    obtain ⟨c, body, e1, hw2, h2⟩ := joinElems_head e es (chRBracket :: tail)
    rw [e1, skipWs_cons _ _ hw2]
    simp only [h2, if_false]
    rw [← e1, parseElems_joinElems es e _ [] tail (by simp)]
    simp

theorem parseMembers_comma (f : Nat) (key : String) (v : Json) (X rest : List Char)
    (acc : List (String × Json)) (hv : parseValue f X = some (v, chComma :: rest)) :
    parseMembers (f + 1) (quoteJSON key ++ chColon :: X) acc =
      parseMembers f rest ((key, v) :: acc) := by
  obtain ⟨body, e, hp⟩ := parseStrBody_quoteJSON key (chColon :: X)
  have hw : isWs chQuote = false := by decide
  have hw2 : isWs chColon = false := by decide
  have hw3 : isWs chComma = false := by decide
  rw [e, parseMembers, skipWs_cons _ _ hw]
  simp [hp, skipWs_cons _ _ hw2, hv, skipWs_cons _ _ hw3]

theorem parseMembers_end (f : Nat) (key : String) (v : Json) (X rest : List Char)
    (acc : List (String × Json)) (hv : parseValue f X = some (v, chRBrace :: rest)) :
    parseMembers (f + 1) (quoteJSON key ++ chColon :: X) acc =
      some (.obj (((key, v) :: acc).reverse), rest) := by
  obtain ⟨body, e, hp⟩ := parseStrBody_quoteJSON key (chColon :: X)
  have hw : isWs chQuote = false := by decide
  have hw2 : isWs chColon = false := by decide
  have hw3 : isWs chRBrace = false := by decide
  have hc : chRBrace ≠ chComma := by decide
  rw [e, parseMembers, skipWs_cons _ _ hw]
  simp [hp, skipWs_cons _ _ hw2, hv, skipWs_cons _ _ hw3, hc]

/-- Entering an object whose first member starts with a string literal. -/
theorem parseValue_object (f : Nat) (key : String) (X : List Char) :
    parseValue (f + 1) (chLBrace :: (quoteJSON key ++ X)) =
      parseMembers f (quoteJSON key ++ X) [] := by
  have hw : isWs chLBrace = false := by decide
  have hw2 : isWs chQuote = false := by decide
  have h1 : chLBrace ≠ chQuote := by decide
  have h2 : chLBrace ≠ chLBracket := by decide
  have h3 : chQuote ≠ chRBrace := by decide
  obtain ⟨body, e, -⟩ := parseStrBody_quoteJSON key X
  rw [parseValue, skipWs_cons _ _ hw]
  simp only [h1, h2, if_false, if_true]
  rw [e, skipWs_cons _ _ hw2]
  simp only [h3, if_false]

theorem parseValue_snapshot (s : Snapshot) (fuel : Nat) (hf : s.options.length + 5 ≤ fuel) :
    parseValue fuel (stringifySnapshot s).data = some (snapshotJson s, []) := by
  obtain ⟨f, rfl⟩ := Nat.exists_eq_add_of_le hf
  obtain ⟨text, opts, correct⟩ := s
  simp only at hf ⊢
  unfold stringifySnapshot snapshotJson
  cases text with
  | none =>
    cases correct with
    | none =>
      simp only [List.nil_append]
      rw [show opts.length + 5 + f = (opts.length + 3 + f + 1) + 1 by omega]
      rw [parseValue_object]
      rw [parseMembers_end _ "options" (.arr (opts.map elemJson)) _ [] _
        (parseValue_array opts _ (by omega) _)]
      rfl
    | some n =>
      simp only [List.nil_append, List.append_assoc, List.cons_append]
      rw [show opts.length + 5 + f = (opts.length + 2 + f + 1 + 1) + 1 by omega]
      rw [parseValue_object]
      rw [parseMembers_comma _ "options" (.arr (opts.map elemJson)) _ _ _
        (parseValue_array opts _ (by omega) _)]
      rw [parseMembers_end _ "correctAnswer" (.num (n : ℚ)) _ [] _
        (parseValue_intDigits _ (by omega) n [])]
      rfl
  | some t =>
    cases correct with
    | none =>
      simp only [List.nil_append, List.append_assoc, List.cons_append]
      rw [show opts.length + 5 + f = (opts.length + 2 + f + 1 + 1) + 1 by omega]
      rw [parseValue_object]
      rw [parseMembers_comma _ "text" (.str t) _ _ []
        (parseValue_quoteJSON _ (by omega) t _)]
      rw [parseMembers_end _ "options" (.arr (opts.map elemJson)) _ [] _
        (parseValue_array opts _ (by omega) _)]
      rfl
    | some n =>
      simp only [List.append_assoc, List.cons_append, List.nil_append]
      rw [show opts.length + 5 + f = (opts.length + 1 + f + 1 + 1 + 1) + 1 by omega]
      rw [parseValue_object]
      rw [parseMembers_comma _ "text" (.str t) _ _ []
        (parseValue_quoteJSON _ (by omega) t _)]
      rw [parseMembers_comma _ "options" (.arr (opts.map elemJson)) _ _ _
        (parseValue_array opts _ (by omega) _)]
      rw [parseMembers_end _ "correctAnswer" (.num (n : ℚ)) _ [] _
        (parseValue_intDigits _ (by omega) n [])]
      rfl

theorem joinElems_length (opts : List (Option String)) :
    opts.length ≤ (joinElems opts).length := by
  induction opts with
  | nil => simp
  | cons e es ih =>
    have he : 1 ≤ (elemJSON e).length := by
      cases e <;> simp [elemJSON, quoteJSON]
    cases es with
    | nil => simpa [joinElems] using he
    | cons t rest =>
      simp only [joinElems, List.length_append, List.length_cons] at ih ⊢
      omega

/-- Parsing what was serialised, `JSON.parse(JSON.stringify(snapshot))`,
succeeds and yields the object with the members that were written: a property
that was `undefined` is absent, an `undefined` array element has become
`null`. -/
theorem jsonParse_stringifySnapshot (s : Snapshot) :
    jsonParse (stringifySnapshot s) = some (snapshotJson s) := by
  have hlen : s.options.length + 5 ≤ (stringifySnapshot s).data.length + 1 := by
    have := joinElems_length s.options
    simp only [stringifySnapshot, List.length_append, List.length_cons, quoteJSON]
    omega
  unfold jsonParse
  rw [parseValue_snapshot s _ hlen]
  rfl

/-- The entry the result handler builds from a row whose snapshot was written
by `JSON.stringify`. -/
theorem resultQuestion_stringify (row : UserAnswer) (snap : Snapshot)
    (h : row.questionSnapshot = stringifySnapshot snap) :
    resultQuestion row = some
      { id := row.questionId
        text := snap.text.map Json.str
        options := some (.arr (snap.options.map elemJson))
        correctAnswer := snap.correctAnswer.map (fun n => Json.num (n : ℚ))
        userAnswer := row.answerIndex
        isCorrect := row.isCorrect } := by
  unfold resultQuestion
  rw [h, jsonParse_stringifySnapshot]
  obtain ⟨text, opts, correct⟩ := snap
  cases text <;> cases correct <;> rfl

/-! ## The handlers as shipped -/

/-- In the scope of `app.js` the submit handler throws at line 346: it answers
500 and leaves the store as it was, whatever the request and the fault plan. -/
theorem submitHandler_appScope (s : Store) (fails : Nat → Bool) (userId : Int)
    (body : SubmitBody) (now : Nat) :
    submitHandler appScope s fails userId body now = (s, .serverError) := by
  unfold submitHandler
  rfl

/-- In the scope of `app.js` the result handler throws at line 410: it answers
500 to every requester. -/
theorem resultHandler_appScope (s : Store) (user : SessionUser) (attemptId : Int) :
    resultHandler appScope s user attemptId = .serverError := by
  unfold resultHandler
  rfl

/-! ## The answer loop -/

theorem roundHalfUpPercent_floor (c n : Nat) (hn : 0 < n) :
    (roundHalfUpPercent c n : ℤ) = ⌊(100 * (c : ℚ) / n) + 1 / 2⌋ := by
  unfold roundHalfUpPercent
  have hn' : (0 : ℚ) < n := by exact_mod_cast hn
  have e : (100 * (c : ℚ) / n) + 1 / 2 = ((200 * c + n : ℕ) : ℚ) / ((2 * n : ℕ) : ℚ) := by
    push_cast
    field_simp
    ring
  rw [e, Rat.floor_natCast_div_natCast]
  norm_cast

theorem recordAnswers_cons_none (scope : Scope) (fails : Nat → Bool) (aid : Int)
    (qs : List Question) (a : SubmittedAnswer) (rest : List SubmittedAnswer) (s : Store)
    (c w : Nat) (h : qs.find? (fun q => decide (q.id = a.questionId)) = none) :
    recordAnswers scope fails aid qs (a :: rest) s c w =
      recordAnswers scope fails aid qs rest s c w := by
  rw [recordAnswers, h]

theorem recordAnswers_cons_unbound (scope : Scope) (fails : Nat → Bool) (aid : Int)
    (qs : List Question) (a : SubmittedAnswer) (rest : List SubmittedAnswer) (s : Store)
    (c w : Nat) (q : Question)
    (h : qs.find? (fun q => decide (q.id = a.questionId)) = some q)
    (hb : scope.binds "UserAnswer" = false) :
    recordAnswers scope fails aid qs (a :: rest) s c w = (s, none) := by
  rw [recordAnswers, h]
  simp [hb]

theorem recordAnswers_cons_fail (scope : Scope) (fails : Nat → Bool) (aid : Int)
    (qs : List Question) (a : SubmittedAnswer) (rest : List SubmittedAnswer) (s : Store)
    (c w : Nat) (q : Question)
    (h : qs.find? (fun q => decide (q.id = a.questionId)) = some q)
    (hb : scope.binds "UserAnswer" = true) (hf : fails w = true) :
    recordAnswers scope fails aid qs (a :: rest) s c w = (s, none) := by
  rw [recordAnswers, h]
  simp [hb, hf]

theorem recordAnswers_cons_ok (scope : Scope) (fails : Nat → Bool) (aid : Int)
    (qs : List Question) (a : SubmittedAnswer) (rest : List SubmittedAnswer) (s : Store)
    (c w : Nat) (q : Question)
    (h : qs.find? (fun q => decide (q.id = a.questionId)) = some q)
    (hb : scope.binds "UserAnswer" = true) (hf : fails w = false) :
    recordAnswers scope fails aid qs (a :: rest) s c w =
      recordAnswers scope fails aid qs rest
        { s with answers := s.answers ++ [answerRow s.nextAnswerId aid q a],
                 nextAnswerId := s.nextAnswerId + 1 }
        (if q.correctOptionIndex = some a.answerIndex then c + 1 else c) (w + 1) := by
  rw [recordAnswers, h]
  simp [hb, hf, Store.createAnswer, answerRow]

theorem matchesQuestion_of_find (qs : List Question) (a : SubmittedAnswer) (q : Question)
    (h : qs.find? (fun q => decide (q.id = a.questionId)) = some q) :
    matchesQuestion qs a = true := by
  simp [matchesQuestion, h]

theorem matchesQuestion_of_find_none (qs : List Question) (a : SubmittedAnswer)
    (h : qs.find? (fun q => decide (q.id = a.questionId)) = none) :
    matchesQuestion qs a = false := by
  simp [matchesQuestion, h]

theorem find_some_mem (qs : List Question) (a : SubmittedAnswer) (q : Question)
    (h : qs.find? (fun q => decide (q.id = a.questionId)) = some q) :
    q ∈ qs ∧ q.id = a.questionId := by
  refine ⟨List.mem_of_find?_eq_some h, ?_⟩
  have := List.find?_some h
  simpa using this

/-- The loop only appends answer rows, each one written for a submitted entry
and the first question of the quiz carrying the entry's question id. -/
theorem recordAnswers_rows (scope : Scope) (fails : Nat → Bool) (aid : Int)
    (qs : List Question) :
    ∀ (answers : List SubmittedAnswer) (s : Store) (c w : Nat),
      ∃ rows, (recordAnswers scope fails aid qs answers s c w).1.answers = s.answers ++ rows ∧
        rows.length ≤ (answers.filter (matchesQuestion qs)).length ∧
        ∀ row ∈ rows, ∃ a ∈ answers, ∃ q rid,
          qs.find? (fun q => decide (q.id = a.questionId)) = some q ∧
            row = answerRow rid aid q a := by
  intro answers
  induction answers with
  | nil =>
    intro s c w
    exact ⟨[], by simp [recordAnswers], by simp, by simp⟩
  | cons a rest ih =>
    intro s c w
    cases hfind : qs.find? (fun q => decide (q.id = a.questionId)) with
    | none =>
      rw [recordAnswers_cons_none _ _ _ _ _ _ _ _ _ hfind]
      obtain ⟨rows, e, hl, hr⟩ := ih s c w
      refine ⟨rows, e, ?_, ?_⟩
      · simp [List.filter_cons, matchesQuestion_of_find_none qs a hfind, hl]
      · intro row hrow
        obtain ⟨a', ha', q, rid, h1, h2⟩ := hr row hrow
        exact ⟨a', List.mem_cons_of_mem _ ha', q, rid, h1, h2⟩
    | some q =>
      cases hb : scope.binds "UserAnswer" with
      | false =>
        rw [recordAnswers_cons_unbound _ _ _ _ _ _ _ _ _ q hfind hb]
        exact ⟨[], by simp, by simp, by simp⟩
      | true =>
        cases hf : fails w with
        | true =>
          rw [recordAnswers_cons_fail _ _ _ _ _ _ _ _ _ q hfind hb hf]
          exact ⟨[], by simp, by simp, by simp⟩
        | false =>
          rw [recordAnswers_cons_ok _ _ _ _ _ _ _ _ _ q hfind hb hf]
          obtain ⟨rows, e, hl, hr⟩ := ih
            { s with answers := s.answers ++ [answerRow s.nextAnswerId aid q a],
                     nextAnswerId := s.nextAnswerId + 1 }
            (if q.correctOptionIndex = some a.answerIndex then c + 1 else c) (w + 1)
          refine ⟨answerRow s.nextAnswerId aid q a :: rows, ?_, ?_, ?_⟩
          · rw [e]
            simp
          · simp only [List.filter_cons, matchesQuestion_of_find qs a q hfind, if_true,
              List.length_cons]
            omega
          · intro row hrow
            rcases List.mem_cons.mp hrow with h | h
            · exact ⟨a, List.mem_cons_self _ _, q, s.nextAnswerId, hfind, h⟩
            · obtain ⟨a', ha', q', rid, h1, h2⟩ := hr row h
              exact ⟨a', List.mem_cons_of_mem _ ha', q', rid, h1, h2⟩

/-- Entries that match no question do not change what the loop does. -/
theorem recordAnswers_filter (scope : Scope) (fails : Nat → Bool) (aid : Int)
    (qs : List Question) :
    ∀ (answers : List SubmittedAnswer) (s : Store) (c w : Nat),
      recordAnswers scope fails aid qs (answers.filter (matchesQuestion qs)) s c w =
        recordAnswers scope fails aid qs answers s c w := by
  intro answers
  induction answers with
  | nil => intro s c w; rfl
  | cons a rest ih =>
    intro s c w
    cases hfind : qs.find? (fun q => decide (q.id = a.questionId)) with
    | none =>
      rw [List.filter_cons, matchesQuestion_of_find_none qs a hfind,
        recordAnswers_cons_none _ _ _ _ _ _ _ _ _ hfind]
      simp only [Bool.false_eq_true, if_false]
      exact ih s c w
    | some q =>
      rw [List.filter_cons, matchesQuestion_of_find qs a q hfind]
      simp only [if_true]
      cases hb : scope.binds "UserAnswer" with
      | false =>
        rw [recordAnswers_cons_unbound _ _ _ _ _ _ _ _ _ q hfind hb,
          recordAnswers_cons_unbound _ _ _ _ _ _ _ _ _ q hfind hb]
      | true =>
        cases hf : fails w with
        | true =>
          rw [recordAnswers_cons_fail _ _ _ _ _ _ _ _ _ q hfind hb hf,
            recordAnswers_cons_fail _ _ _ _ _ _ _ _ _ q hfind hb hf]
        | false =>
          rw [recordAnswers_cons_ok _ _ _ _ _ _ _ _ _ q hfind hb hf,
            recordAnswers_cons_ok _ _ _ _ _ _ _ _ _ q hfind hb hf]
          exact ih _ _ _

/-- The ways a run of the submit handler on an existing quiz can end: before
any write (a name does not resolve, or the creation of the attempt fails),
after the attempt was created (an exception in the loop or in the score
update), or with every write done. -/
theorem submitHandler_cases (scope : Scope) (s : Store) (fails : Nat → Bool) (userId : Int)
    (body : SubmitBody) (now : Nat) (quiz : Quiz) (hq : s.findQuiz body.quizId = some quiz) :
    submitHandler scope s fails userId body now = (s, .serverError) ∨
    submitHandler scope s fails userId body now =
      ((recordAnswers scope fails s.nextAttemptId quiz.Questions body.answers
        (s.createAttempt userId body.quizId body.timeSpent now) 0 1).1, .serverError) ∨
    ∃ c w,
      (recordAnswers scope fails s.nextAttemptId quiz.Questions body.answers
        (s.createAttempt userId body.quizId body.timeSpent now) 0 1).2 = some (c, w) ∧
      submitHandler scope s fails userId body now =
        (((recordAnswers scope fails s.nextAttemptId quiz.Questions body.answers
          (s.createAttempt userId body.quizId body.timeSpent now) 0 1).1).updateScore
            s.nextAttemptId (computeScore c quiz.Questions.length), .ok s.nextAttemptId) := by
  generalize hr : recordAnswers scope fails s.nextAttemptId quiz.Questions body.answers
      (s.createAttempt userId body.quizId body.timeSpent now) 0 1 = r
  obtain ⟨s2, o⟩ := r
  cases h1 : (scope.binds "Quiz" && scope.binds "Question" && scope.binds "Option") with
  | false =>
    left
    simp [submitHandler, h1]
  | true =>
    cases h2 : scope.binds "QuizAttempt" with
    | false =>
      left
      simp [submitHandler, h1, hq, h2]
    | true =>
      cases h0 : fails 0 with
      | true =>
        left
        simp [submitHandler, h1, hq, h2, h0]
      | false =>
        right
        cases o with
        | none =>
          left
          simp [submitHandler, h1, hq, h2, h0, hr]
        | some cw =>
          obtain ⟨c, w⟩ := cw
          cases hw : fails w with
          | true =>
            left
            simp [submitHandler, h1, hq, h2, h0, hr, hw]
          | false =>
            right
            exact ⟨c, w, rfl, by simp [submitHandler, h1, hq, h2, h0, hr, hw]⟩

/-- In every scope and under every fault plan the store the submit handler
leaves holds the answers it found plus rows the loop wrote. -/
theorem submitHandler_rows (scope : Scope) (s : Store) (fails : Nat → Bool) (userId : Int)
    (body : SubmitBody) (now : Nat) (quiz : Quiz) (hq : s.findQuiz body.quizId = some quiz) :
    ∃ rows : List UserAnswer,
      (submitHandler scope s fails userId body now).1.answers = s.answers ++ rows ∧
      rows.length ≤ (body.answers.filter (matchesQuestion quiz.Questions)).length ∧
      ∀ row ∈ rows, ∃ a ∈ body.answers, ∃ q rid,
        quiz.Questions.find? (fun q => decide (q.id = a.questionId)) = some q ∧
          row = answerRow rid s.nextAttemptId q a := by
  obtain ⟨rows, hrows, hlen, hrow⟩ := recordAnswers_rows scope fails s.nextAttemptId
    quiz.Questions body.answers (s.createAttempt userId body.quizId body.timeSpent now) 0 1
  have hrows' : (recordAnswers scope fails s.nextAttemptId quiz.Questions body.answers
      (s.createAttempt userId body.quizId body.timeSpent now) 0 1).1.answers =
      s.answers ++ rows := by
    rw [hrows]
    rfl
  rcases submitHandler_cases scope s fails userId body now quiz hq with h | h | ⟨c, w, -, h⟩
  · exact ⟨[], by rw [h]; simp, by simp, by simp⟩
  · exact ⟨rows, by rw [h]; exact hrows', hlen, hrow⟩
  · exact ⟨rows, by rw [h]; exact hrows', hlen, hrow⟩

/-! ## What the bodies of the handlers do when the model names resolve

The facts of this section are about `modelScope`, not about the handlers as
`app.js` sets them up; they record what lines 352-397 and 420-460 do once the
names at lines 346 and 410 resolve. -/

/-- With the names resolved an unknown quiz id is answered with 404. -/
theorem body_unknown_quiz :
    submitHandler modelScope exStore noFaults 7 ⟨5, [⟨1, 0⟩], 30⟩ 1000 = (exStore, .notFound) := by
  decide

/-- With the names resolved the example submission writes the rows of
`recordedStore`. -/
theorem body_example_submission :
    submitHandler modelScope exStore noFaults 7 exBody 1000 = (recordedStore, .ok 1) := by
  decide

/-- With the names resolved the result of the example attempt counts the three
recorded rows, while the score was computed against the four questions. -/
theorem body_example_result :
    ∃ v, resultHandler modelScope recordedStore ⟨7, false⟩ 1 = .ok v ∧
      v.totalQuestions = 3 ∧ v.correctAnswers = 2 ∧ v.wrongAnswers = 1 ∧
      v.score = JsNumber.ofNat 50 :=
  ⟨_, rfl, rfl, rfl, rfl, rfl⟩

/-- With the names resolved, 23 of 40 correct store 57: `(23 / 40) * 100` is
`57.49999999999999` in binary64, and round half up of 57.5 is 58. -/
theorem body_tie_rounds_down :
    (submitHandler modelScope tieStore noFaults 7 tieBody 0).1.storedScore 1 =
      some (JsNumber.ofNat 57) ∧
    roundHalfUpPercent (specCorrectCount tieQuiz.Questions tieBody.answers)
      tieQuiz.Questions.length = 58 := by
  decide

/-- With the names resolved, a repeated entry is counted twice and the score
200 is stored. -/
theorem body_duplicate_entries :
    (submitHandler modelScope oneStore noFaults 7 dupBody 0).1.storedScore 1 =
      some (JsNumber.ofNat 200) := by
  decide

/-- With the names resolved, a quiz without questions gets the score `NaN`. -/
theorem body_empty_quiz :
    submitHandler modelScope emptyStore noFaults 7 ⟨1, [⟨1, 0⟩], 0⟩ 0 =
      ({ emptyStore with
          attempts := [⟨1, 7, 1, JsNumber.nan, 0, 0⟩], nextAttemptId := 2 }, .ok 1) := by
  decide

/-- With the names resolved, a failing second answer write leaves the attempt
row and the first answer row behind. -/
theorem body_partial_rows :
    (submitHandler modelScope exStore (fun i => decide (i = 2)) 7 exBody 1000).2 = .serverError ∧
    (submitHandler modelScope exStore (fun i => decide (i = 2)) 7 exBody 1000).1.attempts =
      [⟨1, 7, 1, JsNumber.ofNat 0, 30, 1000⟩] ∧
    (submitHandler modelScope exStore (fun i => decide (i = 2)) 7 exBody 1000).1.answers =
      recordedStore.answers.take 1 := by
  decide

/-- With the names resolved, a stranger gets 403, an administrator the view,
and the owner of an attempt whose quiz row is gone gets 500. -/
theorem body_access :
    resultHandler modelScope recordedStore ⟨8, false⟩ 1 = .forbidden ∧
    (∃ v, resultHandler modelScope recordedStore ⟨8, true⟩ 1 = .ok v) ∧
    resultHandler modelScope { recordedStore with quizzes := [] } ⟨7, false⟩ 1 = .serverError :=
  ⟨rfl, ⟨_, rfl⟩, rfl⟩

/-- With the names resolved, on a quiz as the create handler writes it the
correct index reads `undefined`: the entry is graded wrong and the snapshot is
the text of an object with `options: [null, null]` only. -/
theorem body_created_quiz :
    (submitHandler modelScope createdStore noFaults 7 ⟨1, [⟨1, 0⟩], 0⟩ 0).1.answers =
      [⟨1, 1, 1, 0, false, stringifySnapshot ⟨none, [none, none], none⟩⟩] ∧
    (stringifySnapshot ⟨none, [none, none], none⟩).data =
      chLBrace :: (quoteJSON "options" ++
        [chColon, chLBracket, 'n', 'u', 'l', 'l', chComma, 'n', 'u', 'l', 'l', chRBracket,
          chRBrace]) := by
  decide

/-- With the names resolved, the entry rebuilt from a row the loop wrote carries
what the question read at submission time; an option text that was `undefined`
comes back as `null`. -/
theorem body_row_round_trip (rid aid : Int) (q : Question) (a : SubmittedAnswer) :
    resultQuestion (answerRow rid aid q a) = some
      { id := q.id
        text := q.text.map Json.str
        options := some (.arr ((q.Options.map (fun o => o.text)).map elemJson))
        correctAnswer := q.correctOptionIndex.map (fun n => Json.num (n : ℚ))
        userAnswer := a.answerIndex
        isCorrect := decide (q.correctOptionIndex = some a.answerIndex) } :=
  resultQuestion_stringify (answerRow rid aid q a) (snapshotOf q) rfl

/-! ## The claims -/

/-- C1 (the code at the failing input). The example submission, two of four
questions answered correctly with one entry per question, for which the
specification's formula gives the score 50: the handler answers 500 and leaves
the store without any attempt, so no score is stored. -/
theorem submit_stores_no_score :
    0 < exQuiz.Questions.length ∧
    (exBody.answers.map (fun a => a.questionId)).Nodup ∧
    roundHalfUpPercent (specCorrectCount exQuiz.Questions exBody.answers)
      exQuiz.Questions.length = 50 ∧
    submitHandler appScope exStore noFaults 7 exBody 1000 = (exStore, .serverError) ∧
    (submitHandler appScope exStore noFaults 7 exBody 1000).1.storedScore 1 = none := by
  decide

/-- C2 (the code at the failing input). One question, its correct answer
submitted twice: the handler answers 500 and the store holds no attempt, hence
no score between 0 and 100 or otherwise. -/
theorem submit_duplicates_no_score :
    submitHandler appScope oneStore noFaults 7 dupBody 0 = (oneStore, .serverError) ∧
    (submitHandler appScope oneStore noFaults 7 dupBody 0).1.attempts = [] := by
  decide

/-- C3 (the code at the failing input). The example of the specification (four
questions, the first answered correctly, the second incorrectly, the third
correctly, the fourth omitted): the submission creates no attempt, and the
request for the result of attempt 1 is answered with 500, on the store the
submission leaves as well as on a store that holds the recorded rows. -/
theorem result_of_example_not_reconstructed :
    exQuiz.Questions.length = 4 ∧
    (submitHandler appScope exStore noFaults 7 exBody 1000).1.findAttempt 1 = none ∧
    resultHandler appScope (submitHandler appScope exStore noFaults 7 exBody 1000).1
      ⟨7, false⟩ 1 = .serverError ∧
    resultHandler appScope recordedStore ⟨7, false⟩ 1 = .serverError :=
  ⟨rfl, by decide, rfl, rfl⟩

/-- C4 (the code at the failing input). Attempt 1 belongs to user 7.  The
handler answers 500 to the owner (no result view), to another user who is not
an administrator (no 403) and to an administrator. -/
theorem result_access_always_500 :
    recordedStore.findAttempt 1 = some ⟨1, 7, 1, JsNumber.ofNat 50, 30, 1000⟩ ∧
    resultHandler appScope recordedStore ⟨7, false⟩ 1 = .serverError ∧
    resultHandler appScope recordedStore ⟨8, false⟩ 1 = .serverError ∧
    resultHandler appScope recordedStore ⟨8, true⟩ 1 = .serverError :=
  ⟨by decide, rfl, rfl, rfl⟩

/-- C5 (the code at the failing input). A quiz without questions: the handler
answers with the 500 of its `catch` block, the answer it gives to a submission
on a quiz with questions as well, and not with a rejection of the empty quiz. -/
theorem submit_empty_quiz :
    emptyStore.findQuiz 1 = some ⟨1, "Empty", []⟩ ∧
    submitHandler appScope emptyStore noFaults 7 ⟨1, [⟨1, 0⟩], 0⟩ 0 =
      (emptyStore, .serverError) ∧
    (submitHandler appScope exStore noFaults 7 exBody 1000).2 =
      (submitHandler appScope emptyStore noFaults 7 ⟨1, [⟨1, 0⟩], 0⟩ 0).2 := by
  decide

/-- C6 (the code at the failing input). Quiz id 5 references no quiz of the
store: the handler leaves the store unchanged but answers 500, not 404. -/
theorem submit_unknown_quiz :
    exStore.findQuiz 5 = none ∧
    submitHandler appScope exStore noFaults 7 ⟨5, [⟨1, 0⟩], 30⟩ 1000 =
      (exStore, .serverError) ∧
    (submitHandler appScope exStore noFaults 7 ⟨5, [⟨1, 0⟩], 30⟩ 1000).2 ≠ .notFound := by
  decide

/-- C7 (the code at the failing input). The example submission records no
answer row, and for a store that holds answer rows with snapshots the result
handler answers 500 instead of rebuilding the entries. -/
theorem snapshot_never_recorded_nor_read :
    (submitHandler appScope exStore noFaults 7 exBody 1000).1.answers = [] ∧
    recordedStore.answersOf 1 ≠ [] ∧
    resultHandler appScope recordedStore ⟨7, false⟩ 1 = .serverError :=
  ⟨by decide, by decide, rfl⟩

/-- C8. Every submission, in particular every one whose fault plan makes a
write fail, ends with the handler failing (status 500) and with the store equal
to the store before the call: no attempt row and no answer row is added. -/
theorem submit_failure_leaves_store (s : Store) (fails : Nat → Bool) (userId : Int)
    (body : SubmitBody) (now : Nat) :
    (submitHandler appScope s fails userId body now).2 = .serverError ∧
    (submitHandler appScope s fails userId body now).1 = s ∧
    (submitHandler appScope s fails userId body now).1.attempts = s.attempts ∧
    (submitHandler appScope s fails userId body now).1.answers = s.answers := by
  have h : submitHandler appScope s fails userId body now = (s, .serverError) := by
    unfold submitHandler
    rfl
  rw [h]
  exact ⟨rfl, rfl, rfl, rfl⟩

/-- C9 (the code at the failing input). Two stores with the same attempt and
answer rows, the second with the quiz retitled and stripped of its questions:
the owner's request is answered with 500 on both, so neither run succeeds. -/
theorem result_runs_both_fail :
    recordedStore.attempts =
      ({ recordedStore with quizzes := [⟨1, "Renamed", []⟩] } : Store).attempts ∧
    recordedStore.answers =
      ({ recordedStore with quizzes := [⟨1, "Renamed", []⟩] } : Store).answers ∧
    resultHandler appScope recordedStore ⟨7, false⟩ 1 = .serverError ∧
    resultHandler appScope { recordedStore with quizzes := [⟨1, "Renamed", []⟩] }
      ⟨7, false⟩ 1 = .serverError :=
  ⟨rfl, rfl, rfl, rfl⟩

/-- C10. Entries whose question id matches no question of the quiz are skipped:
in every scope and under every fault plan the run of the handler (response and
resulting store, hence stored score and answer rows) is the run on the answers
list with those entries removed, and every answer row the request adds belongs
to a question of the quiz. -/
theorem submit_skips_unknown_questions (scope : Scope) (s : Store) (fails : Nat → Bool)
    (userId : Int) (body : SubmitBody) (now : Nat) (quiz : Quiz)
    (hq : s.findQuiz body.quizId = some quiz) :
    submitHandler scope s fails userId body now =
      submitHandler scope s fails userId
        { body with answers := body.answers.filter (matchesQuestion quiz.Questions) } now ∧
    ∃ rows : List UserAnswer,
      (submitHandler scope s fails userId body now).1.answers = s.answers ++ rows ∧
      rows.length ≤ (body.answers.filter (matchesQuestion quiz.Questions)).length ∧
      ∀ row ∈ rows, ∃ q ∈ quiz.Questions, row.questionId = q.id := by
  refine ⟨?_, ?_⟩
  · unfold submitHandler
    simp only [hq, recordAnswers_filter]
  · obtain ⟨rows, hrows, hlen, hrow⟩ := submitHandler_rows scope s fails userId body now quiz hq
    refine ⟨rows, hrows, hlen, ?_⟩
    intro row hmem
    obtain ⟨a, -, q, rid, hfind, rfl⟩ := hrow row hmem
    exact ⟨q, (find_some_mem _ _ _ hfind).1, rfl⟩

/-- Witness for C10: the example submission with an entry for a question `9`
that the quiz does not have, in the scope of `app.js`. -/
theorem submit_skips_unknown_questions_witness :
    submitHandler appScope exStore noFaults 7 ⟨1, [⟨1, 0⟩, ⟨9, 1⟩, ⟨2, 0⟩], 30⟩ 1000 =
      submitHandler appScope exStore noFaults 7
        { (⟨1, [⟨1, 0⟩, ⟨9, 1⟩, ⟨2, 0⟩], 30⟩ : SubmitBody) with
          answers := (⟨1, [⟨1, 0⟩, ⟨9, 1⟩, ⟨2, 0⟩], 30⟩ : SubmitBody).answers.filter
            (matchesQuestion exQuiz.Questions) } 1000 ∧
    ∃ rows : List UserAnswer,
      (submitHandler appScope exStore noFaults 7 ⟨1, [⟨1, 0⟩, ⟨9, 1⟩, ⟨2, 0⟩], 30⟩ 1000).1.answers =
        exStore.answers ++ rows ∧
      rows.length ≤ ((⟨1, [⟨1, 0⟩, ⟨9, 1⟩, ⟨2, 0⟩], 30⟩ : SubmitBody).answers.filter
        (matchesQuestion exQuiz.Questions)).length ∧
      ∀ row ∈ rows, ∃ q ∈ exQuiz.Questions, row.questionId = q.id :=
  submit_skips_unknown_questions appScope exStore noFaults 7
    ⟨1, [⟨1, 0⟩, ⟨9, 1⟩, ⟨2, 0⟩], 30⟩ 1000 exQuiz (by decide)

end QuizApp
